import Mathlib

/-!
Shallow embedding of the TarregaSheets backend (`backend/app/...`) for
specification checking.  Text is modelled as `List Char` (the UTF-8 decoded
Python `str`), byte blobs as abstract values, the document store and the
external MuseScore tool as oracle environments, and the in-memory conversion
queue as an explicit state-transition system.
-/

namespace TarregaSheets

/-! ## String utilities (Python `str.replace`, `in`, and the volta regex)

All scanners below are structurally recursive (a pending-skip counter stands
for the index arithmetic of Python's scanning), so closed instances reduce in
the kernel. -/

/-- `containsSub pat s` models Python's `pat in s` (substring test). -/
def containsSub (pat : List Char) : List Char → Bool
  | [] => pat.isEmpty
  | c :: rest => pat.isPrefixOf (c :: rest) || containsSub pat rest

/-- Scanner of Python `s.replace(pat, repl)` for a non-empty `pat`
(the only way the source calls it): leftmost, non-overlapping; the `Nat`
argument is the number of already-matched characters still to drop. -/
def replaceAllAux (pat repl : List Char) : Nat → List Char → List Char
  | k + 1, _ :: rest => replaceAllAux pat repl k rest
  | _, [] => []
  | 0, c :: rest =>
    if pat.isPrefixOf (c :: rest) then
      repl ++ replaceAllAux pat repl (pat.length - 1) rest
    else
      c :: replaceAllAux pat repl 0 rest

/-- Python `s.replace(pat, repl)` (all occurrences), for non-empty `pat`. -/
def replaceAll (pat repl s : List Char) : List Char :=
  replaceAllAux pat repl 0 s

/-- Python `s.replace(pat, repl, 1)` (first occurrence only). -/
def replaceFirst (pat repl : List Char) : List Char → List Char
  | [] => []
  | c :: rest =>
    if pat.isPrefixOf (c :: rest) then
      repl ++ rest.drop (pat.length - 1)
    else
      c :: replaceFirst pat repl rest

/-- A separator of the volta-number regex `[\s,]+`: a comma or (ASCII)
whitespace, as Python's `re` sees `\s`. -/
def voltaSep (c : Char) : Bool :=
  c == ',' || c == ' ' || c == '\t' || c == '\n' || c == '\r' || c == '\x0b' || c == '\x0c'

/-- The maximal runs of non-separator characters of a volta number list:
`[part for part in re.split(r'[\s,]+', numbers) if part.strip()]`. -/
def voltaTokensAux : Nat → List Char → List (List Char)
  | k + 1, _ :: rest => voltaTokensAux k rest
  | _, [] => []
  | 0, c :: rest =>
    if voltaSep c then voltaTokensAux 0 rest
    else
      (c :: rest.takeWhile (fun ch => !voltaSep ch)) ::
        voltaTokensAux (rest.takeWhile (fun ch => !voltaSep ch)).length rest

def voltaTokens (s : List Char) : List (List Char) := voltaTokensAux 0 s

/-- Python `' '.join(parts)`. -/
def joinSpaces : List (List Char) → List Char
  | [] => []
  | [t] => t
  | t :: ts => t ++ ' ' :: joinSpaces ts

/-- `_normalize_volta` applied to one `number="..."` attribute value:
split on commas/whitespace, discard empty parts, rejoin with single spaces.
(When the value holds no token at all the Python code returns the match
unchanged, which equals the empty rejoined string there.) -/
def normalizeNumbers (v : List Char) : List Char := joinSpaces (voltaTokens v)

/-- A character the regex class `[^"<>]` accepts inside an attribute value. -/
def voltaValChar (c : Char) : Bool := !(c == '"' || c == '<' || c == '>')

/-- The literal `number="` that anchors the volta regex. -/
def numberOpenTag : List Char := "number=\"".toList

/-- Scanner of `re.sub(r'(?P<prefix>number=")(?P<numbers>[^"<>]*?)(?P<suffix>")',
_normalize_volta, text)`: at a position starting with `number="`, the lazy
class match succeeds exactly when a `"` is reached before any `<` or `>`;
the rewritten region is skipped, otherwise scanning advances one character. -/
def subNumbersAux : Nat → List Char → List Char
  | k + 1, _ :: rest => subNumbersAux k rest
  | _, [] => []
  | 0, c :: rest =>
    if numberOpenTag.isPrefixOf (c :: rest) then
      let value := (rest.drop 7).takeWhile voltaValChar
      match (rest.drop 7).drop value.length with
      | '"' :: _ =>
        numberOpenTag ++ normalizeNumbers value ++ '"' :: subNumbersAux (8 + value.length) rest
      | _ => c :: subNumbersAux 0 rest
    else
      c :: subNumbersAux 0 rest

/-- The volta-number rewriting pass of `_sanitize_musicxml`. -/
def subNumbers (s : List Char) : List Char := subNumbersAux 0 s

/-! ### The sanitizer's literals (from `parser._sanitize_musicxml`) -/

def discontinuePat : List Char := "type=\"discontinue\"".toList
def stopPat : List Char := "type=\"stop\"".toList
def endingPat : List Char := "<ending".toList
def backwardPat : List Char := "repeat direction=\"backward\"".toList
def forwardPat : List Char := "repeat direction=\"forward\"".toList
def leftBarlinePat : List Char := "<barline location=\"left\">".toList
def leftBarlineRepl : List Char :=
  "<barline location=\"left\">\n        <repeat direction=\"forward\"/>".toList

/-- `parser._sanitize_musicxml` on the decoded text: replace every
`type="discontinue"` by `type="stop"`; when the text holds `<ending`,
normalize every `number="..."` attribute value; when it holds a backward
repeat but no forward repeat, splice a forward repeat after the first
left-barline opening tag. -/
def sanitizeMusicXML (s : List Char) : List Char :=
  let t1 := if containsSub discontinuePat s then replaceAll discontinuePat stopPat s else s
  let t2 := if containsSub endingPat t1 then subNumbers t1 else t1
  if containsSub backwardPat t2 && !containsSub forwardPat t2 then
    replaceFirst leftBarlinePat leftBarlineRepl t2
  else
    t2

/-! ## `config.mask_secret` -/

/-- `config.mask_secret(value, show_chars)`: empty value → fixed marker;
short value → all asterisks; long value → head, ellipsis, 4-character tail;
otherwise head plus `***`. -/
def maskSecret (value : List Char) (showChars : Nat) : List Char :=
  if value = [] ∨ value.length ≤ showChars then
    if value = [] then "***NOT_SET***".toList else List.replicate value.length '*'
  else if 12 < value.length then
    value.take showChars ++ "...".toList ++ value.drop (value.length - 4)
  else
    value.take showChars ++ "***".toList

/-! ## Conversion queue (`services/conversion_queue.py`)

The in-memory job registry is an association list, `datetime.now()` is a
logical clock carried in the state, and the single background worker thread
(`get_queue()` constructs the queue with `max_workers=1`) is a phase tracking
which `_update_job` call of `_process_conversion` ran last.  External calls
(converter, validator, MIDI generation, GridFS uploads) appear as the
nondeterministic choice between the success and failure transitions. -/

/-- `models/conversion.py: ConversionJob` (timestamps as clock ticks). -/
structure ConversionJob where
  id : String
  pieceId : String
  versionId : String
  fromNotation : String
  toNotation : String
  status : String
  progress : Nat
  errorMessage : Option String
  outputMusicxmlFileId : Option String
  outputMidiFileId : Option String
  createdAt : Nat
  updatedAt : Nat
  completedAt : Option Nat
deriving DecidableEq

/-- `self._jobs.get(conversion_id)`. -/
def lookupJob (jobs : List (String × ConversionJob)) (cid : String) : Option ConversionJob :=
  match jobs.find? (fun p => p.1 == cid) with
  | some p => some p.2
  | none => none

/-- In-place mutation of the registry entry for `cid`. -/
def setJob (jobs : List (String × ConversionJob)) (cid : String) (j : ConversionJob) :
    List (String × ConversionJob) :=
  jobs.map (fun p => if p.1 == cid then (p.1, j) else p)

/-- `self._jobs[conversion_id] = job` (fresh ids are appended). -/
def storeJob (jobs : List (String × ConversionJob)) (cid : String) (j : ConversionJob) :
    List (String × ConversionJob) :=
  match lookupJob jobs cid with
  | some _ => setJob jobs cid j
  | none => jobs ++ [(cid, j)]

/-- Which `_update_job` call of `_process_conversion` the worker thread ran
last for the job it is processing (idle when between tasks). -/
inductive WorkerPhase where
  | idle
  | got (cid : String)
  | atProgress10 (cid : String)
  | atProgress30 (cid : String)
  | atProgress50 (cid : String)
  | atProgress70 (cid : String)
  | atProgress85 (cid : String)
deriving DecidableEq

/-- The queue singleton's state: registry, pending work queue (task payloads
carry the input bytes, irrelevant to job fields), worker phase, clock. -/
structure QueueState where
  jobs : List (String × ConversionJob)
  tasks : List String
  worker : WorkerPhase
  clock : Nat
deriving DecidableEq

def initQueueState : QueueState :=
  { jobs := [], tasks := [], worker := .idle, clock := 0 }

/-- The field assignments `_update_job` performs on the found job: each
supplied field is set, `updated_at` is always stamped. -/
def applyUpdate (j : ConversionJob) (clock : Nat) (status : Option String)
    (progress : Option Nat) (errorMessage : Option String)
    (outMusicxml outMidi : Option String) (completedAt : Option Nat) : ConversionJob :=
  { j with
    status := status.getD j.status
    progress := progress.getD j.progress
    errorMessage := match errorMessage with
      | some m => some m
      | none => j.errorMessage
    outputMusicxmlFileId := match outMusicxml with
      | some x => some x
      | none => j.outputMusicxmlFileId
    outputMidiFileId := match outMidi with
      | some x => some x
      | none => j.outputMidiFileId
    completedAt := match completedAt with
      | some x => some x
      | none => j.completedAt
    updatedAt := clock }

/-- `ConversionQueue._update_job`: sets exactly the supplied fields and
always stamps `updated_at`; a no-op when the id is unknown. -/
def updateJob (s : QueueState) (cid : String) (status : Option String)
    (progress : Option Nat) (errorMessage : Option String)
    (outMusicxml outMidi : Option String) (completedAt : Option Nat) : QueueState :=
  match lookupJob s.jobs cid with
  | none => s
  | some j =>
    let j' := applyUpdate j s.clock status progress errorMessage outMusicxml outMidi completedAt
    { s with jobs := setJob s.jobs cid j' }

/-- `ConversionQueue.queue_conversion` (the fresh uuid4 is the caller-chosen
`cid`; freshness is a hypothesis where it matters). -/
def queueConversion (s : QueueState) (cid pieceId versionId fromN toN : String) :
    QueueState × String :=
  let job : ConversionJob :=
    { id := cid, pieceId := pieceId, versionId := versionId
      fromNotation := fromN, toNotation := toN
      status := "queued", progress := 0
      errorMessage := none, outputMusicxmlFileId := none, outputMidiFileId := none
      createdAt := s.clock, updatedAt := s.clock, completedAt := none }
  ({ s with jobs := storeJob s.jobs cid job, tasks := s.tasks ++ [cid] }, cid)

/-- `ConversionQueue.get_job_status`. -/
def getJobStatus (s : QueueState) (cid : String) : Option ConversionJob :=
  lookupJob s.jobs cid

/-- `ConversionQueue.retry_conversion`: true exactly when the job exists with
status "failed"; then status/progress/error are reset, `updated_at` stamped
and the work re-queued; otherwise a no-op returning false. -/
def retryConversion (s : QueueState) (cid : String) : QueueState × Bool :=
  match lookupJob s.jobs cid with
  | none => (s, false)
  | some job =>
    if job.status ≠ "failed" then (s, false)
    else
      let j' : ConversionJob :=
        { job with
          status := "queued"
          progress := 0
          errorMessage := none
          updatedAt := s.clock }
      ({ s with jobs := setJob s.jobs cid j', tasks := s.tasks ++ [cid] }, true)

/-- Transition labels: the queue's public calls and each worker micro-step of
`_worker_loop` / `_process_conversion`. -/
inductive QLabel where
  | enqueue (cid pieceId versionId fromN toN : String)
  | retry (cid : String)
  | pick (cid : String)
  | dropMissing (cid : String)
  | mark10 (cid : String)
  | mark30 (cid : String)
  | failConvert (cid : String) (msg : String)
  | mark50 (cid : String)
  | failValidate (cid : String) (msg : String)
  | mark70 (cid : String)
  | failMidi (cid : String) (msg : String)
  | mark85 (cid : String)
  | failUpload (cid : String) (msg : String)
  | complete (cid : String) (musicxmlId midiId : String)

/-- Advance the logical clock after an event. -/
def tickClock (s : QueueState) : QueueState :=
  { s with clock := s.clock + 1 }

/-- The queue's labeled transition relation. -/
inductive QStep : QLabel → QueueState → QueueState → Prop where
  | enqueue (s : QueueState) (cid pieceId versionId fromN toN : String)
      (fresh : lookupJob s.jobs cid = none) :
      QStep (.enqueue cid pieceId versionId fromN toN) s
        (tickClock (queueConversion s cid pieceId versionId fromN toN).1)
  | retry (s : QueueState) (cid : String) :
      QStep (.retry cid) s (tickClock (retryConversion s cid).1)
  | pick (s : QueueState) (cid : String) (rest : List String)
      (htasks : s.tasks = cid :: rest) (hw : s.worker = .idle) :
      QStep (.pick cid) s (tickClock { s with tasks := rest, worker := .got cid })
  | dropMissing (s : QueueState) (cid : String) (hw : s.worker = .got cid)
      (hmiss : lookupJob s.jobs cid = none) :
      QStep (.dropMissing cid) s (tickClock { s with worker := .idle })
  | mark10 (s : QueueState) (cid : String) (hw : s.worker = .got cid)
      (hjob : (lookupJob s.jobs cid).isSome) :
      QStep (.mark10 cid) s
        (tickClock { updateJob s cid (some "in_progress") (some 10) none none none none with
          worker := .atProgress10 cid })
  | mark30 (s : QueueState) (cid : String) (hw : s.worker = .atProgress10 cid) :
      QStep (.mark30 cid) s
        (tickClock { updateJob s cid none (some 30) none none none none with
          worker := .atProgress30 cid })
  | failConvert (s : QueueState) (cid msg : String) (hw : s.worker = .atProgress30 cid) :
      QStep (.failConvert cid msg) s
        (tickClock { updateJob s cid (some "failed") none (some msg) none none none with
          worker := .idle })
  | mark50 (s : QueueState) (cid : String) (hw : s.worker = .atProgress30 cid) :
      QStep (.mark50 cid) s
        (tickClock { updateJob s cid none (some 50) none none none none with
          worker := .atProgress50 cid })
  | failValidate (s : QueueState) (cid msg : String) (hw : s.worker = .atProgress50 cid) :
      QStep (.failValidate cid msg) s
        (tickClock { updateJob s cid (some "failed") none (some msg) none none none with
          worker := .idle })
  | mark70 (s : QueueState) (cid : String) (hw : s.worker = .atProgress50 cid) :
      QStep (.mark70 cid) s
        (tickClock { updateJob s cid none (some 70) none none none none with
          worker := .atProgress70 cid })
  | failMidi (s : QueueState) (cid msg : String) (hw : s.worker = .atProgress70 cid) :
      QStep (.failMidi cid msg) s
        (tickClock { updateJob s cid (some "failed") none (some msg) none none none with
          worker := .idle })
  | mark85 (s : QueueState) (cid : String) (hw : s.worker = .atProgress70 cid) :
      QStep (.mark85 cid) s
        (tickClock { updateJob s cid none (some 85) none none none none with
          worker := .atProgress85 cid })
  | failUpload (s : QueueState) (cid msg : String) (hw : s.worker = .atProgress85 cid) :
      QStep (.failUpload cid msg) s
        (tickClock { updateJob s cid (some "failed") none (some msg) none none none with
          worker := .idle })
  | complete (s : QueueState) (cid musicxmlId midiId : String)
      (hw : s.worker = .atProgress85 cid) :
      QStep (.complete cid musicxmlId midiId) s
        (tickClock { updateJob s cid (some "completed") (some 100) none
            (some musicxmlId) (some midiId) (some s.clock) with
          worker := .idle })

/-- States reachable from the freshly started queue. -/
inductive QReachable : QueueState → Prop where
  | init : QReachable initQueueState
  | step (l : QLabel) (s s' : QueueState) :
      QReachable s → QStep l s s' → QReachable s'

/-- The job id a worker phase is processing, if any. -/
def phaseCid : WorkerPhase → Option String
  | .idle => none
  | .got cid => some cid
  | .atProgress10 cid => some cid
  | .atProgress30 cid => some cid
  | .atProgress50 cid => some cid
  | .atProgress70 cid => some cid
  | .atProgress85 cid => some cid

/-- The status a worker-held job must have in the given phase. -/
def phaseStatus : WorkerPhase → Option String
  | .idle => none
  | .got _ => some "queued"
  | _ => some "in_progress"

/-- The registry invariant: pending tasks point at queued jobs without
duplicates, the worker's job is queued (just picked) or in progress (being
processed) and not simultaneously pending, and every status is one of the
four states. -/
def QInv (s : QueueState) : Prop :=
  (∀ cid ∈ s.tasks, ∃ j, lookupJob s.jobs cid = some j ∧ j.status = "queued")
  ∧ s.tasks.Nodup
  ∧ (∀ cid st, phaseCid s.worker = some cid → phaseStatus s.worker = some st →
      (∃ j, lookupJob s.jobs cid = some j ∧ j.status = st) ∧ cid ∉ s.tasks)
  ∧ (∀ cid j, lookupJob s.jobs cid = some j →
      j.status = "queued" ∨ j.status = "in_progress"
        ∨ j.status = "completed" ∨ j.status = "failed")

/-- The per-transition facts of the job-status state machine, for a job going
from `j` to `j'` under the labeled step `l`: in_progress is entered only by
the worker marking a picked-up queued job; completed and failed are entered
only from in_progress; failed returns to queued only through retry; completed
is terminal. -/
def JobTransProps (l : QLabel) (cid : String) (j j' : ConversionJob) : Prop :=
  (j'.status = "in_progress" → j.status ≠ "in_progress" →
    j.status = "queued" ∧ l = .mark10 cid)
  ∧ (j'.status = "completed" → j.status ≠ "completed" → j.status = "in_progress")
  ∧ (j'.status = "failed" → j.status ≠ "failed" → j.status = "in_progress")
  ∧ (j.status = "failed" → j'.status = "queued" → l = .retry cid)
  ∧ (j.status = "completed" → j' = j)

/-- A concrete failed job, for witnesses. -/
def demoFailedJob : ConversionJob :=
  { id := "job-1", pieceId := "p1", versionId := "v1"
    fromNotation := "staff", toNotation := "tab"
    status := "failed", progress := 30
    errorMessage := some "Conversion failed: boom"
    outputMusicxmlFileId := none, outputMidiFileId := none
    createdAt := 0, updatedAt := 3, completedAt := none }

/-- A concrete queue state holding one failed job, for witnesses. -/
def demoQueueState : QueueState :=
  { jobs := [("job-1", demoFailedJob)], tasks := [], worker := .idle, clock := 7 }

/-- The state right after enqueuing one job on a fresh queue, for witnesses. -/
def demoEnqueuedState : QueueState :=
  tickClock (queueConversion initQueueState "c1" "p1" "v1" "staff" "tab").1

/-! ## Notation converter (`services/converter.py`) -/

/-- Outcome of the MuseScore subprocess once actually invoked. -/
inductive ToolRun where
  | ok
  | timedOut
  | exited (code : Nat) (stderrText : String)
deriving DecidableEq

/-- The external world `convert_musicxml` interacts with. -/
structure MuseScoreEnv where
  museScoreOnPath : Bool
  parseOk : Bool
  runResult : ToolRun
  outputBytes : Option (List Nat)
deriving DecidableEq

/-- The converter's externally visible side effects, in order. -/
inductive ConvAction where
  | writeTempInput
  | invokeTool
deriving DecidableEq

/-- How `convert_musicxml` terminates. -/
inductive ConvOutcome where
  | ok (out : List Nat)
  | valueError (msg : String)
  | conversionError (msg : String)
deriving DecidableEq

/-- `_convert_staff_to_tab` / `_convert_tab_to_staff` (identical up to the
message label), inlining `run_musescore_conversion`: validate the input with
music21, check the binary is on the path (before any subprocess run), invoke
the tool, then check timeout, exit code and output file; raises inside the
inner `try` other than the two named kinds are re-wrapped with the label. -/
def convertViaTool (env : MuseScoreEnv) (label : String) (timeoutS : Nat)
    (acts : List ConvAction) : ConvOutcome × List ConvAction :=
  if !env.parseOk then
    (.conversionError "Invalid MusicXML input: parse failure", acts)
  else if !env.museScoreOnPath then
    (.conversionError
      "MuseScore CLI not available: mscore-headless not found. Run in Docker container or install MuseScore + Xvfb locally.",
      acts)
  else
    let acts2 := acts ++ [ConvAction.invokeTool]
    match env.runResult with
    | .timedOut =>
      (.conversionError ("Conversion timed out after " ++ toString timeoutS ++ "s"), acts2)
    | .exited code err =>
      (.conversionError (label ++ " conversion failed: MuseScore conversion failed (exit code "
        ++ toString code ++ "): " ++ err), acts2)
    | .ok =>
      match env.outputBytes with
      | none =>
        (.conversionError (label ++ " conversion failed: MuseScore did not generate output file"),
          acts2)
      | some out =>
        if out.length == 0 then
          (.conversionError (label ++ " conversion failed: MuseScore generated empty output"),
            acts2)
        else
          (.ok out, acts2)

/-- `convert_musicxml`: the same-notation guard raises `ValueError` before
the temporary directory, input write or any tool work; afterwards one of the
two direction helpers runs, and anything they raise is wrapped once more by
the outer `except` as a `ConversionError`. -/
def convertMusicXML (env : MuseScoreEnv) (_inputMusicxml : List Nat) (fromN toN : String)
    (timeoutS : Nat) : ConvOutcome × List ConvAction :=
  if fromN == toN then
    (.valueError ("Cannot convert from " ++ fromN ++ " to " ++ toN ++ " (same type)"), [])
  else
    let acts := [ConvAction.writeTempInput]
    let inner :=
      if fromN == "staff" && toN == "tab" then
        convertViaTool env "Staff → TAB" timeoutS acts
      else if fromN == "tab" && toN == "staff" then
        convertViaTool env "TAB → Staff" timeoutS acts
      else
        (.conversionError ("Unsupported conversion: " ++ fromN ++ " → " ++ toN), acts)
    match inner.1 with
    | .conversionError m => (.conversionError ("Conversion failed: " ++ m), inner.2)
    | r => (r, inner.2)

/-! ## GridFS storage (`services/storage.py`) -/

/-- Result of one underlying driver call: a value, or a raised exception
carrying its message. -/
inductive PyResult (α : Type) where
  | ok (a : α)
  | exn (msg : String)
deriving DecidableEq

/-- A stored object as `open_download_stream` exposes it. -/
structure GridOut where
  content : List Nat
  filename : Option String
  contentTypeMeta : Option String
  byteLength : Nat
  uploadDate : Nat
deriving DecidableEq

/-- The driver behavior per id: `ObjectId` parsing, the download stream, the
delete call. -/
structure GridFSEnv where
  parseObjectId : String → PyResult String
  openStream : String → PyResult GridOut
  deleteObj : String → PyResult Unit

/-- The error kinds a storage operation could surface (`update_file_metadata`
raises a generic `Exception`, hence the second constructor; the fetch,
delete, metadata and exists operations are claimed to use only the first). -/
inductive StorageErr where
  | fileNotFound (msg : String)
  | otherError (msg : String)
deriving DecidableEq

/-- `storage.get_file`: every failure of the underlying steps — malformed
id, absent object, any unexpected error — is re-raised as
`FileNotFoundError("File not found: {file_id}")`. -/
def getFile (env : GridFSEnv) (fileId : String) :
    Except StorageErr (List Nat × String × String) :=
  match env.parseObjectId fileId with
  | .exn _ => .error (.fileNotFound ("File not found: " ++ fileId))
  | .ok oid =>
    match env.openStream oid with
    | .exn _ => .error (.fileNotFound ("File not found: " ++ fileId))
    | .ok g =>
      .ok (g.content, g.filename.getD "untitled",
        g.contentTypeMeta.getD "application/octet-stream")

/-- `storage.delete_file`, same catch-all contract. -/
def deleteFile (env : GridFSEnv) (fileId : String) : Except StorageErr Bool :=
  match env.parseObjectId fileId with
  | .exn _ => .error (.fileNotFound ("File not found: " ++ fileId))
  | .ok oid =>
    match env.deleteObj oid with
    | .exn _ => .error (.fileNotFound ("File not found: " ++ fileId))
    | .ok _ => .ok true

/-- What `storage.get_file_metadata` returns. -/
structure FileMetadata where
  filename : Option String
  contentType : String
  byteLength : Nat
  uploadDate : Nat
deriving DecidableEq

/-- `storage.get_file_metadata`, same catch-all contract. -/
def getFileMetadata (env : GridFSEnv) (fileId : String) :
    Except StorageErr FileMetadata :=
  match env.parseObjectId fileId with
  | .exn _ => .error (.fileNotFound ("File not found: " ++ fileId))
  | .ok oid =>
    match env.openStream oid with
    | .exn _ => .error (.fileNotFound ("File not found: " ++ fileId))
    | .ok g =>
      .ok { filename := g.filename
            contentType := g.contentTypeMeta.getD "application/octet-stream"
            byteLength := g.byteLength
            uploadDate := g.uploadDate }

/-- `storage.file_exists`: run `get_file`, treat a `FileNotFoundError` as
false; any other exception would propagate to the caller. -/
def fileExists (env : GridFSEnv) (fileId : String) : Except StorageErr Bool :=
  match getFile env fileId with
  | .ok _ => .ok true
  | .error (.fileNotFound _) => .ok false
  | .error e => .error e

/-- A driver whose every call raises, for witnesses. -/
def brokenGridFSEnv : GridFSEnv :=
  { parseObjectId := fun _ => .exn "bson.errors.InvalidId"
    openStream := fun _ => .exn "no such file"
    deleteObj := fun _ => .exn "no such file" }

/-! ## Upload endpoint (`routes/upload.py`) -/

/-- `Settings.max_upload_size` (50 MB). -/
def maxUploadSize : Nat := 50 * 1024 * 1024

/-- `Settings.allowed_file_types` (the MIME allow-list). -/
def allowedFileTypes : List String :=
  ["application/pdf", "application/vnd.recordare.musicxml+xml",
   "application/vnd.recordare.musicxml", "application/x-compressed",
   "audio/midi", "audio/x-midi"]

/-- Modelled from the spec: `Settings.allowed_file_extensions`.  The upload
route reads `settings.allowed_file_extensions`, but the `Settings` class of
the checked-in `config.py` snapshot does not declare that field; §4.1 of the
specification describes it as the extension set derived from the MIME
allow-list (the MusicXML/MXL extensions the pipeline accepts). -/
def allowedFileExtensions : List String :=
  [".pdf", ".musicxml", ".xml", ".mxl", ".mid", ".midi"]

/-- Index of the last occurrence of `c` in `s` (Python `str.rfind`, as an
`Option`). -/
def lastIndexOfAux (c : Char) : List Char → Nat → Option Nat
  | [], _ => none
  | d :: rest, i =>
    match lastIndexOfAux c rest (i + 1) with
    | some k => some k
    | none => if d == c then some i else none

def lastIndexOf (c : Char) (s : List Char) : Option Nat := lastIndexOfAux c s 0

/-- The final path component (`PurePath.name`). -/
def pathName (s : List Char) : List Char :=
  match lastIndexOf '/' s with
  | none => s
  | some i => s.drop (i + 1)

/-- `PurePath.suffix`: from the last dot of the name, when that dot is
neither first nor last. -/
def pathSuffix (s : List Char) : List Char :=
  let name := pathName s
  match lastIndexOf '.' name with
  | some i => if 0 < i ∧ i < name.length - 1 then name.drop i else []
  | none => []

/-- `Path(filename).suffix.lower()` as the route computes it. -/
def fileExtOf (filename : String) : String :=
  String.mk ((pathSuffix filename.toList).map Char.toLower)

/-- `filename.rsplit(".", 1)[0]`. -/
def beforeLastDot (s : String) : String :=
  match lastIndexOf '.' s.toList with
  | some i => String.mk (s.toList.take i)
  | none => s

structure HTTPError where
  statusCode : Nat
  detail : String
deriving DecidableEq

/-- One `storage.upload_file` attempt of the upload route. -/
inductive StoreKind where
  | original
  | cleaned
  | midi
  | convertedTab
  | convertedStaff
deriving DecidableEq

/-- The metadata dict `parser.parse_musicxml` extracts. -/
structure ScoreMetadata where
  title : String
  composer : String
  tempo : Nat
  key : String
  timeSignature : String
  hasTablature : Bool
  hasStaffNotation : Bool
  notationType : String
deriving DecidableEq

/-- The exception kind of a failed conversion preview, matching the route's
three `except` clauses. -/
inductive ConvFailKind where
  | conversionError
  | valueError
  | otherError
deriving DecidableEq

/-- The oracle for everything the upload route calls out to. -/
structure UploadEnv where
  storeOriginal : PyResult String
  parseResult : PyResult (ScoreMetadata × List Nat)
  storeCleaned : PyResult String
  midiGen : PyResult (List Nat)
  storeMidi : PyResult String
  convertStaffToTab : Except (ConvFailKind × String) (List Nat)
  storeTab : PyResult String
  convertTabToStaff : Except (ConvFailKind × String) (List Nat)
  storeStaff : PyResult String

/-- One entry of the `conversion_checks` map (timings are not modelled). -/
structure CheckResult where
  status : String
  info : Option String
deriving DecidableEq

structure ConversionChecks where
  midi : CheckResult
  mxlExtract : CheckResult
  staffToTab : CheckResult
  tabToStaff : CheckResult
  pdfToMxl : CheckResult
  imageToMusicxml : CheckResult
deriving DecidableEq

structure PreviewAssets where
  musicxmlFileId : Option String
  midiFileId : Option String
  tabMusicxmlFileId : Option String
  staffMusicxmlFileId : Option String
deriving DecidableEq

/-- The upload response (legacy fields plus diagnostics). -/
structure UploadResponse where
  fileId : String
  midiFileId : Option String
  metadata : ScoreMetadata
  originalFileId : String
  musicxmlFileId : Option String
  filename : String
  contentType : String
  size : Nat
  parseStatus : String
  parseError : Option String
  midiStatus : String
  midiError : Option String
  checks : ConversionChecks
  previewAssets : PreviewAssets
deriving DecidableEq

/-- The synthesized default metadata when parsing failed entirely. -/
def defaultMetadata (filename : String) : ScoreMetadata :=
  { title := beforeLastDot filename
    composer := ""
    tempo := 120
    key := "C"
    timeSignature := "4/4"
    hasTablature := false
    hasStaffNotation := true
    notationType := "staff" }

/-- `_attempt_conversion`: skip without cleaned XML; classify a
`ConversionError` mentioning the missing CLI as "unavailable"; a storage
failure of the converted blob is folded into the check, not a 500. -/
def attemptConversion (conv : Except (ConvFailKind × String) (List Nat))
    (store : PyResult String) (kind : StoreKind) (cleaned : List Nat) :
    CheckResult × Option String × List StoreKind :=
  if cleaned.isEmpty then
    ({ status := "skipped", info := some "No cleaned MusicXML available" }, none, [])
  else
    match conv with
    | .error (k, msg) =>
      match k with
      | .conversionError =>
        if containsSub "MuseScore CLI not available".toList msg.toList then
          ({ status := "unavailable", info := some msg }, none, [])
        else
          ({ status := "failed", info := some msg }, none, [])
      | _ => ({ status := "failed", info := some msg }, none, [])
    | .ok _ =>
      match store with
      | .exn e => ({ status := "failed", info := some ("Storage failed: " ++ e) }, none, [kind])
      | .ok fid => ({ status := "success", info := none }, some fid, [kind])

/-- The conversion-preview pass over both directions. -/
def previewStage (env : UploadEnv) (meta : ScoreMetadata) (cleaned : List Nat)
    (checks : ConversionChecks) :
    ConversionChecks × Option String × Option String × List StoreKind :=
  let st :=
    if meta.hasStaffNotation then
      attemptConversion env.convertStaffToTab env.storeTab StoreKind.convertedTab cleaned
    else
      ({ status := "skipped", info := some "Source lacks staff notation" }, none, [])
  let ts :=
    if meta.hasTablature then
      attemptConversion env.convertTabToStaff env.storeStaff StoreKind.convertedStaff cleaned
    else
      ({ status := "skipped", info := some "Source lacks tablature" }, none, [])
  ({ checks with staffToTab := st.1, tabToStaff := ts.1 }, st.2.1, ts.2.1, st.2.2 ++ ts.2.2)

/-- The pre-seeded `conversion_checks` map. -/
def initialChecks (fileExt : String) : ConversionChecks :=
  { midi := { status := "pending", info := none }
    mxlExtract :=
      if fileExt == ".mxl" then { status := "pending", info := none }
      else { status := "skipped", info := some "Source not compressed (.mxl)" }
    staffToTab := { status := "pending", info := none }
    tabToStaff := { status := "pending", info := none }
    pdfToMxl := { status := "unavailable", info := some "Conversion not implemented yet" }
    imageToMusicxml := { status := "unavailable", info := some "Conversion not implemented yet" } }

/-- The MIDI stage of the pipeline (generation, storage, check entry). -/
def midiStage (env : UploadEnv) :
    PyResult (String × Option String × Option String × CheckResult × List StoreKind) :=
  match env.midiGen with
  | .exn e =>
    .ok ("failed", some e, none, { status := "failed", info := some e }, [])
  | .ok _ =>
    match env.storeMidi with
    | .exn e => .exn ("MIDI storage failed: " ++ e)
    | .ok midiFileId =>
      .ok ("success", none, some midiFileId, { status := "success", info := none },
        [StoreKind.midi])

/-- The body of the upload route after validation: store the original (500 on
failure), parse, store cleaned XML (500 on failure), generate and store MIDI
(500 on storage failure only), then the conversion-preview pass; the second
component lists every storage attempt in order. -/
def uploadPipeline (env : UploadEnv) (content : List Nat)
    (filename fileExt contentType : String) :
    Except HTTPError UploadResponse × List StoreKind :=
  match env.storeOriginal with
  | .exn e =>
    (.error { statusCode := 500, detail := "Original file storage failed: " ++ e },
      [StoreKind.original])
  | .ok originalFileId =>
    let acts0 := [StoreKind.original]
    let checks0 := initialChecks fileExt
    match env.parseResult with
    | .exn e =>
      let checks :=
        { checks0 with
          mxlExtract :=
            if fileExt == ".mxl" then { status := "failed", info := some e }
            else checks0.mxlExtract
          midi := { status := "skipped", info := some "Parse failed" }
          staffToTab := { status := "skipped", info := some "Parse failed" }
          tabToStaff := { status := "skipped", info := some "Parse failed" } }
      (.ok { fileId := originalFileId
             midiFileId := none
             metadata := defaultMetadata filename
             originalFileId := originalFileId
             musicxmlFileId := none
             filename := filename
             contentType := contentType
             size := content.length
             parseStatus := "failed"
             parseError := some e
             midiStatus := "skipped"
             midiError := some "MIDI generation skipped due to parse failure"
             checks := checks
             previewAssets := { musicxmlFileId := none
                                midiFileId := none
                                tabMusicxmlFileId := none
                                staffMusicxmlFileId := none } }, acts0)
    | .ok (meta, cleaned) =>
      let checks1 :=
        { checks0 with
          mxlExtract :=
            if fileExt == ".mxl" then { status := "success", info := none }
            else checks0.mxlExtract }
      if cleaned.isEmpty then
        let pv := previewStage env meta cleaned
          { checks1 with midi := { status := "skipped", info := some "Parse failed" } }
        (.ok { fileId := originalFileId
               midiFileId := none
               metadata := meta
               originalFileId := originalFileId
               musicxmlFileId := none
               filename := filename
               contentType := contentType
               size := content.length
               parseStatus := "success"
               parseError := none
               midiStatus := "skipped"
               midiError := some "MIDI generation skipped due to parse failure"
               checks := pv.1
               previewAssets := { musicxmlFileId := none
                                  midiFileId := none
                                  tabMusicxmlFileId := pv.2.1
                                  staffMusicxmlFileId := pv.2.2.1 } },
          acts0 ++ pv.2.2.2)
      else
        match env.storeCleaned with
        | .exn e =>
          (.error { statusCode := 500, detail := "Storage failed: " ++ e },
            acts0 ++ [StoreKind.cleaned])
        | .ok musicxmlFileId =>
          let acts1 := acts0 ++ [StoreKind.cleaned]
          match midiStage env with
          | .exn e => (.error { statusCode := 500, detail := e }, acts1 ++ [StoreKind.midi])
          | .ok (midiStatus, midiError, midiFileId, midiCheck, midiActs) =>
            let pv := previewStage env meta cleaned { checks1 with midi := midiCheck }
            (.ok { fileId := musicxmlFileId
                   midiFileId := midiFileId
                   metadata := meta
                   originalFileId := originalFileId
                   musicxmlFileId := some musicxmlFileId
                   filename := filename
                   contentType := contentType
                   size := content.length
                   parseStatus := "success"
                   parseError := none
                   midiStatus := midiStatus
                   midiError := midiError
                   checks := pv.1
                   previewAssets := { musicxmlFileId := some musicxmlFileId
                                      midiFileId := midiFileId
                                      tabMusicxmlFileId := pv.2.1
                                      staffMusicxmlFileId := pv.2.2.1 } },
              acts1 ++ midiActs ++ pv.2.2.2)

/-- `routes/upload.upload_file`: size check (413), filename defaulting,
extension check (415), lenient content-type check (415), then the pipeline.
(CPython formats `52428800 / 1024 / 1024` as `50.0`.) -/
def uploadFile (env : UploadEnv) (content : List Nat) (filenameOpt : Option String)
    (contentTypeOpt : Option String) : Except HTTPError UploadResponse × List StoreKind :=
  if maxUploadSize < content.length then
    (.error { statusCode := 413, detail := "File too large. Max size: 50.0 MB" }, [])
  else
    let filename := filenameOpt.getD "untitled.xml"
    let fileExt := fileExtOf filename
    if fileExt ∉ allowedFileExtensions then
      (.error { statusCode := 415
                detail := "Unsupported file extension: " ++ fileExt ++ ". Allowed: "
                  ++ String.intercalate ", " allowedFileExtensions }, [])
    else
      match contentTypeOpt with
      | some ct =>
        if ct ∉ allowedFileTypes then
          (.error { statusCode := 415, detail := "Unsupported file type: " ++ ct }, [])
        else
          uploadPipeline env content filename fileExt ct
      | none => uploadPipeline env content filename fileExt "application/octet-stream"

/-- A concrete upload oracle for witnesses. -/
def demoUploadEnv : UploadEnv :=
  { storeOriginal := .ok "fid-original"
    parseResult := .exn "parse boom"
    storeCleaned := .ok "fid-clean"
    midiGen := .ok []
    storeMidi := .ok "fid-midi"
    convertStaffToTab := .error (ConvFailKind.conversionError, "no tool")
    storeTab := .ok "fid-tab"
    convertTabToStaff := .error (ConvFailKind.conversionError, "no tool")
    storeStaff := .ok "fid-staff" }

/-! ## Lemmas about the string scanners -/

theorem containsSub_eq_true_of_prefix {pat s : List Char} (h : pat <+: s) :
    containsSub pat s = true := by
  cases s with
  | nil =>
    have hp : pat = [] := List.prefix_nil.mp h
    simp [containsSub, hp]
  | cons c rest =>
    simp only [containsSub, Bool.or_eq_true]
    exact Or.inl (List.isPrefixOf_iff_prefix.mpr h)

theorem mem_of_containsSub {pat s : List Char} (h : containsSub pat s = true)
    {c : Char} (hc : c ∈ pat) : c ∈ s := by
  induction s with
  | nil =>
    simp [containsSub, List.isEmpty_iff] at h
    subst h
    cases hc
  | cons d rest ih =>
    simp only [containsSub, Bool.or_eq_true] at h
    rcases h with h | h
    · exact (List.isPrefixOf_iff_prefix.mp h).subset hc
    · exact List.mem_cons_of_mem d (ih h)

theorem containsSub_eq_false {pat s : List Char} {ch : Char}
    (hch : ch ∈ pat) (hs : ch ∉ s) : containsSub pat s = false := by
  cases h : containsSub pat s with
  | false => rfl
  | true => exact absurd (mem_of_containsSub h hch) hs

theorem replaceFirst_of_not_contains {pat repl s : List Char}
    (h : containsSub pat s = false) : replaceFirst pat repl s = s := by
  induction s with
  | nil => rfl
  | cons c rest ih =>
    simp only [containsSub, Bool.or_eq_false_iff] at h
    simp [replaceFirst, h.1, ih h.2]

theorem replaceFirst_first_occ {pat repl : List Char} (a b : List Char) (hpat : pat ≠ [])
    (ha : ∀ t, t <:+ a → t ≠ [] → pat.isPrefixOf (t ++ (pat ++ b)) = false) :
    replaceFirst pat repl (a ++ (pat ++ b)) = a ++ (repl ++ b) := by
  induction a with
  | nil =>
    cases pat with
    | nil => exact absurd rfl hpat
    | cons p ps =>
      have hpre : (p :: ps).isPrefixOf (p :: (ps ++ b)) = true := by
        have hp : (p :: ps) <+: (p :: ps) ++ b := List.prefix_append _ b
        rw [List.cons_append] at hp
        exact List.isPrefixOf_iff_prefix.mpr hp
      simp only [List.nil_append, List.cons_append, replaceFirst, List.append_eq, hpre,
        if_true, List.length_cons, Nat.add_sub_cancel, List.drop_left]
  | cons c a' ih =>
    have hfalse : pat.isPrefixOf (c :: (a' ++ (pat ++ b))) = false := by
      have h0 := ha (c :: a') List.suffix_rfl (by simp)
      simpa using h0
    rw [List.cons_append]
    rw [show replaceFirst pat repl (c :: (a' ++ (pat ++ b)))
        = c :: replaceFirst pat repl (a' ++ (pat ++ b)) from by
      simp [replaceFirst, hfalse]]
    rw [List.cons_append]
    exact congrArg (c :: ·) (ih fun t ht htne => ha t (ht.trans (List.suffix_cons c a')) htne)

theorem subNumbersAux_skip (a : List Char) (k : Nat) (b : List Char) :
    subNumbersAux (a.length + k) (a ++ b) = subNumbersAux k b := by
  induction a generalizing k with
  | nil => simp
  | cons c a' ih =>
    have harith : (c :: a').length + k = (a'.length + k) + 1 := by simp; omega
    rw [harith]
    show subNumbersAux ((a'.length + k) + 1) (c :: (a' ++ b)) = subNumbersAux k b
    rw [show subNumbersAux ((a'.length + k) + 1) (c :: (a' ++ b))
        = subNumbersAux (a'.length + k) (a' ++ b) from by simp [subNumbersAux]]
    exact ih k

theorem subNumbersAux_cons_nomatch {c : Char} {rest : List Char}
    (h : numberOpenTag.isPrefixOf (c :: rest) = false) :
    subNumbersAux 0 (c :: rest) = c :: subNumbersAux 0 rest := by
  simp [subNumbersAux, h]

theorem takeWhile_append_all {p : Char → Bool} {v : List Char}
    (hv : ∀ c ∈ v, p c = true) {q : Char} (hq : p q = false) (b : List Char) :
    (v ++ q :: b).takeWhile p = v := by
  induction v with
  | nil => simp [List.takeWhile, hq]
  | cons c v' ih =>
    have hc : p c = true := hv c (List.mem_cons_self c v')
    simp only [List.cons_append, List.takeWhile_cons, hc, if_true]
    rw [ih fun d hd => hv d (List.mem_cons_of_mem c hd)]

theorem mem_joinSpaces {ts : List (List Char)} {c : Char} (h : c ∈ joinSpaces ts) :
    (∃ t ∈ ts, c ∈ t) ∨ c = ' ' := by
  induction ts with
  | nil => cases h
  | cons t ts ih =>
    cases ts with
    | nil =>
      have hexp : joinSpaces [t] = t := rfl
      rw [hexp] at h
      exact Or.inl ⟨t, List.mem_cons_self t [], h⟩
    | cons t' ts' =>
      have hexp : joinSpaces (t :: t' :: ts') = t ++ ' ' :: joinSpaces (t' :: ts') := rfl
      rw [hexp] at h
      rcases List.mem_append.mp h with h | h
      · exact Or.inl ⟨t, List.mem_cons_self _ _, h⟩
      · rcases List.mem_cons.mp h with h | h
        · exact Or.inr h
        · rcases ih h with ⟨u, hu, hcu⟩ | h
          · exact Or.inl ⟨u, List.mem_cons_of_mem _ hu, hcu⟩
          · exact Or.inr h

theorem mem_voltaTokensAux {k : Nat} {s : List Char} {t : List Char}
    (ht : t ∈ voltaTokensAux k s) {c : Char} (hc : c ∈ t) : c ∈ s := by
  induction s generalizing k with
  | nil =>
    rw [show voltaTokensAux k [] = [] from by cases k <;> simp [voltaTokensAux]] at ht
    cases ht
  | cons d rest ih =>
    cases k with
    | succ k' =>
      rw [show voltaTokensAux (k' + 1) (d :: rest) = voltaTokensAux k' rest from by
        simp [voltaTokensAux]] at ht
      exact List.mem_cons_of_mem d (ih ht)
    | zero =>
      by_cases hd : voltaSep d
      · rw [show voltaTokensAux 0 (d :: rest) = voltaTokensAux 0 rest from by
          simp [voltaTokensAux, hd]] at ht
        exact List.mem_cons_of_mem d (ih ht)
      · rw [show voltaTokensAux 0 (d :: rest)
            = (d :: rest.takeWhile (fun ch => !voltaSep ch)) ::
                voltaTokensAux (rest.takeWhile (fun ch => !voltaSep ch)).length rest from by
          simp [voltaTokensAux, hd]] at ht
        rcases List.mem_cons.mp ht with h | h
        · subst h
          rcases List.mem_cons.mp hc with h | h
          · exact h ▸ List.mem_cons_self d rest
          · exact List.mem_cons_of_mem d ((List.takeWhile_sublist _).mem h)
        · exact List.mem_cons_of_mem d (ih h)

theorem mem_normalizeNumbers {v : List Char} {c : Char} (h : c ∈ normalizeNumbers v) :
    c ∈ v ∨ c = ' ' := by
  rcases mem_joinSpaces h with ⟨t, ht, hct⟩ | h
  · exact Or.inl (mem_voltaTokensAux ht hct)
  · exact Or.inr h

theorem subNumbersAux_lit_step {c : Char} {lit rest : List Char}
    (hlit : numberOpenTag.isPrefixOf (c :: (lit ++ rest)) = false)
    (hrec : subNumbersAux 0 (lit ++ rest) = lit ++ subNumbersAux 0 rest) :
    subNumbersAux 0 (c :: (lit ++ rest)) = (c :: lit) ++ subNumbersAux 0 rest := by
  rw [subNumbersAux_cons_nomatch hlit, hrec, List.cons_append]

/-! ## Claim theorems for the sanitizer (C2, C5, C6) -/

/-- C5: sanitization is idempotent on already-sanitized text: whenever the
text holds no `type="discontinue"` marker, its volta number lists are already
normalized (the volta pass is a fixed point), and any backward repeat is
matched by a forward repeat, sanitization returns the text unchanged. -/
theorem sanitize_idempotent_on_sanitized (t : List Char)
    (h1 : containsSub discontinuePat t = false)
    (h2 : subNumbers t = t)
    (h3 : containsSub backwardPat t = true → containsSub forwardPat t = true) :
    sanitizeMusicXML t = t := by
  unfold sanitizeMusicXML
  simp only [h1, Bool.false_eq_true, if_false, h2, ite_self]
  cases hb : containsSub backwardPat t with
  | false => simp [hb]
  | true => simp [hb, h3 hb]

/-- Witness for C5 at a concrete already-sanitized document. -/
theorem sanitize_idempotent_witness :
    sanitizeMusicXML ("<ending type=\"stop\" number=\"1 2\"/><barline location=\"left\"><repeat direction=\"forward\"/></barline><barline location=\"right\"><repeat direction=\"backward\"/></barline>".toList)
      = "<ending type=\"stop\" number=\"1 2\"/><barline location=\"left\"><repeat direction=\"forward\"/></barline><barline location=\"right\"><repeat direction=\"backward\"/></barline>".toList :=
  sanitize_idempotent_on_sanitized _ (by decide) (by decide) (by decide)

/-- C6 (amended): on text on which the discontinue and volta passes make no
change, holding a backward repeat and no forward repeat: if it also holds no
left-barline opening tag, sanitization inserts nothing (the text is returned
unchanged); if it decomposes around the first left-barline opening tag, the
replacement splices exactly the forward-repeat element right after that tag;
and on text that already holds any forward repeat, sanitization inserts
nothing.  The last conjunct records that the spliced text is the left-barline
tag followed by the forward-repeat element. -/
theorem sanitize_repeat_fix (t A B : List Char)
    (hd : containsSub discontinuePat t = false)
    (hn : subNumbers t = t) :
    (containsSub forwardPat t = true → sanitizeMusicXML t = t)
    ∧ (containsSub backwardPat t = true → containsSub forwardPat t = false →
        containsSub leftBarlinePat t = false → sanitizeMusicXML t = t)
    ∧ (containsSub backwardPat t = true → containsSub forwardPat t = false →
        t = A ++ (leftBarlinePat ++ B) →
        (∀ s ∈ A.tails, s ≠ [] → leftBarlinePat.isPrefixOf (s ++ (leftBarlinePat ++ B)) = false) →
        sanitizeMusicXML t = A ++ (leftBarlineRepl ++ B))
    ∧ leftBarlineRepl = leftBarlinePat ++ "\n        <repeat direction=\"forward\"/>".toList := by
  refine ⟨?_, ?_, ?_, by decide⟩
  · intro hf
    unfold sanitizeMusicXML
    simp [hd, hn, hf]
  · intro hb hf hl
    unfold sanitizeMusicXML
    simp only [hd, Bool.false_eq_true, if_false, hn, ite_self, hb, hf, Bool.not_false,
      Bool.and_self, if_true]
    exact replaceFirst_of_not_contains hl
  · intro hb hf heq hocc
    unfold sanitizeMusicXML
    simp only [hd, Bool.false_eq_true, if_false, hn, ite_self, hb, hf, Bool.not_false,
      Bool.and_self, if_true]
    rw [heq]
    exact replaceFirst_first_occ A B (by decide)
      fun s hs hne => hocc s ((List.mem_tails s A).mpr hs) hne

/-- Witness for C6's third conjunct at a concrete document: the forward repeat
is spliced right after the first (only) left-barline opening tag. -/
theorem sanitize_repeat_fix_witness :
    sanitizeMusicXML ("<measure>".toList ++ (leftBarlinePat ++ "</barline><repeat direction=\"backward\"/></measure>".toList))
      = "<measure>".toList ++ (leftBarlineRepl ++ "</barline><repeat direction=\"backward\"/></measure>".toList) :=
  (sanitize_repeat_fix _ _ _ (by decide) (by decide)).2.2.1 (by decide) (by decide) rfl (by decide)

/-- Counterexample for C6 as frozen: a document holding a backward repeat and
no forward repeat, but no left-barline opening tag; sanitization inserts no
forward-repeat element (the claim asserts exactly one insertion). -/
theorem sanitize_repeat_counterexample :
    containsSub backwardPat "<barline location=\"right\"><repeat direction=\"backward\"/></barline>".toList = true
    ∧ containsSub forwardPat "<barline location=\"right\"><repeat direction=\"backward\"/></barline>".toList = false
    ∧ sanitizeMusicXML "<barline location=\"right\"><repeat direction=\"backward\"/></barline>".toList
        = "<barline location=\"right\"><repeat direction=\"backward\"/></barline>".toList
    ∧ containsSub forwardPat
        (sanitizeMusicXML "<barline location=\"right\"><repeat direction=\"backward\"/></barline>".toList) = false := by
  refine ⟨by decide, by decide, by decide, by decide⟩

/-- C2 (amended): the volta-number rewriting runs only when the text holds
`<ending`; on an ending element carrying `number="..."`, for every attribute
value made of digits, commas and spaces, sanitization replaces the value by
its comma/whitespace-separated tokens rejoined with single spaces. -/
theorem sanitize_volta_normalization (v : List Char)
    (hv : ∀ c ∈ v, c ∈ "0123456789, ".toList) :
    sanitizeMusicXML ("<ending number=\"".toList ++ (v ++ "\"/>".toList))
      = "<ending number=\"".toList ++ (normalizeNumbers v ++ "\"/>".toList) := by
  have hprops : ∀ c ∈ "0123456789, ".toList,
      voltaValChar c = true ∧ c ≠ 'y' ∧ c ≠ 'w' := by decide
  have hval : ∀ c ∈ v, voltaValChar c = true := fun c hc => (hprops c (hv c hc)).1
  have hy : 'y' ∉ v := fun h => (hprops 'y' (hv 'y' h)).2.1 rfl
  have hw : 'w' ∉ v := fun h => (hprops 'w' (hv 'w' h)).2.2 rfl
  have hctx : "<ending number=\"".toList
      = '<' :: 'e' :: 'n' :: 'd' :: 'i' :: 'n' :: 'g' :: ' ' :: 'n' :: 'u' :: 'm' :: 'b' :: 'e' :: 'r' :: '=' :: '"' ::([] : List Char) := by
    decide
  have htail : "\"/>".toList = '"' :: '/' :: '>' ::([] : List Char) := by decide
  have hn8 : numberOpenTag = 'n' :: 'u' :: 'm' :: 'b' :: 'e' :: 'r' :: '=' :: '"' ::([] : List Char) := by decide
  have hmemy : 'y' ∉ ("<ending number=\"".toList ++ (v ++ "\"/>".toList)) := by
    intro h
    rcases List.mem_append.mp h with h | h
    · revert h; decide
    · rcases List.mem_append.mp h with h | h
      · exact hy h
      · revert h; decide
  have hd : containsSub discontinuePat ("<ending number=\"".toList ++ (v ++ "\"/>".toList)) = false :=
    containsSub_eq_false (by decide) hmemy
  have he : containsSub endingPat ("<ending number=\"".toList ++ (v ++ "\"/>".toList)) = true := by
    refine containsSub_eq_true_of_prefix (List.IsPrefix.trans ?_ (List.prefix_append _ _))
    exact List.isPrefixOf_iff_prefix.mp (by decide)
  have htake : (v ++ ('"' :: '/' :: '>' ::[])).takeWhile voltaValChar = v :=
    takeWhile_append_all hval (by decide) _
  have hdrop : (v ++ ('"' :: '/' :: '>' ::[])).drop v.length = '"' :: '/' :: '>' ::[] :=
    List.drop_left v _
  have hstep2 : subNumbersAux 0 ('n' :: 'u' :: 'm' :: 'b' :: 'e' :: 'r' :: '=' :: '"' ::(v ++ ('"' :: '/' :: '>' ::[])))
      = numberOpenTag ++ normalizeNumbers v ++ '"' :: ['/', '>'] := by
    rw [show subNumbersAux 0 ('n' :: 'u' :: 'm' :: 'b' :: 'e' :: 'r' :: '=' :: '"' ::(v ++ ('"' :: '/' :: '>' ::[])))
        = numberOpenTag ++ normalizeNumbers ((v ++ ('"' :: '/' :: '>' ::[])).takeWhile voltaValChar)
          ++ '"' :: subNumbersAux (8 + ((v ++ ('"' :: '/' :: '>' ::[])).takeWhile voltaValChar).length)
              ('u' :: 'm' :: 'b' :: 'e' :: 'r' :: '=' :: '"' ::(v ++ ('"' :: '/' :: '>' ::[]))) from by
      simp only [subNumbersAux, hn8, List.isPrefixOf, List.drop_succ_cons, List.drop_zero]
      simp [htake, hdrop]]
    rw [htake]
    rw [show 'u' :: 'm' :: 'b' :: 'e' :: 'r' :: '=' :: '"' ::(v ++ ('"' :: '/' :: '>' ::[]))
        = ('u' :: 'm' :: 'b' :: 'e' :: 'r' :: '=' :: '"' ::v) ++ ('"' :: '/' :: '>' ::[]) from by simp]
    rw [show 8 + v.length = ('u' :: 'm' :: 'b' :: 'e' :: 'r' :: '=' :: '"' ::v).length + 1 from by
      simp; omega]
    rw [subNumbersAux_skip]
    rw [show subNumbersAux 1 ('"' :: '/' :: '>' ::[]) = ['/', '>'] from by decide]
  have hsub : subNumbers ("<ending number=\"".toList ++ (v ++ "\"/>".toList))
      = "<ending number=\"".toList ++ (normalizeNumbers v ++ "\"/>".toList) := by
    have hstep1 : ∀ w : List Char,
        subNumbersAux 0 ('<' :: 'e' :: 'n' :: 'd' :: 'i' :: 'n' :: 'g' :: ' ' ::w)
          = '<' :: 'e' :: 'n' :: 'd' :: 'i' :: 'n' :: 'g' :: ' ' :: subNumbersAux 0 w := by
      intro w
      simp [subNumbersAux, hn8, List.isPrefixOf]
    rw [hctx, htail]
    simp only [List.cons_append, List.nil_append]
    show subNumbersAux 0 _ = _
    rw [hstep1 ('n' :: 'u' :: 'm' :: 'b' :: 'e' :: 'r' :: '=' :: '"' ::(v ++ ('"' :: '/' :: '>' ::[])))]
    rw [hstep2, hn8]
    simp
  have hmemw : 'w' ∉ ("<ending number=\"".toList ++ (normalizeNumbers v ++ "\"/>".toList)) := by
    intro h
    rcases List.mem_append.mp h with h | h
    · revert h; decide
    · rcases List.mem_append.mp h with h | h
      · rcases mem_normalizeNumbers h with h | h
        · exact hw h
        · cases h
      · revert h; decide
  have hbw : containsSub backwardPat
      ("<ending number=\"".toList ++ (normalizeNumbers v ++ "\"/>".toList)) = false :=
    containsSub_eq_false (by decide) hmemw
  unfold sanitizeMusicXML
  simp only [hd, Bool.false_eq_true, if_false, he, if_true, hsub, hbw, Bool.false_and]

/-- Witness for C2: the volta value `1, 2` inside an ending element is
normalized to `1 2`. -/
theorem sanitize_volta_normalization_witness :
    sanitizeMusicXML "<ending number=\"1, 2\"/>".toList = "<ending number=\"1 2\"/>".toList := by
  have h := sanitize_volta_normalization "1, 2".toList (by decide)
  have e1 : "<ending number=\"".toList ++ ("1, 2".toList ++ "\"/>".toList)
      = "<ending number=\"1, 2\"/>".toList := by decide
  have e2 : "<ending number=\"".toList ++ (normalizeNumbers "1, 2".toList ++ "\"/>".toList)
      = "<ending number=\"1 2\"/>".toList := by decide
  rw [e1, e2] at h
  exact h

/-- Counterexample for C2 as frozen: an input holding `number="1, 2"` but no
`<ending` substring passes through sanitization unchanged; no normalized
`number="1 2"` appears in the output. -/
theorem sanitize_volta_counterexample :
    sanitizeMusicXML "<measure number=\"1, 2\"/>".toList = "<measure number=\"1, 2\"/>".toList
    ∧ containsSub "number=\"1 2\"".toList
        (sanitizeMusicXML "<measure number=\"1, 2\"/>".toList) = false := by
  refine ⟨by decide, by decide⟩

/-- C7: `mask_secret` at the default show-length 8: the empty value yields
the fixed marker, a value of length at most 8 yields as many asterisks, a
value longer than 12 yields its first 8 characters, an ellipsis and its last
4 characters, and a value of length 9 to 12 yields its first 8 characters
followed by `***`. -/
theorem mask_secret_spec (v : List Char) :
    (maskSecret [] 8 = "***NOT_SET***".toList)
    ∧ (v ≠ [] → v.length ≤ 8 → maskSecret v 8 = List.replicate v.length '*')
    ∧ (12 < v.length → maskSecret v 8 = v.take 8 ++ "...".toList ++ v.drop (v.length - 4))
    ∧ (9 ≤ v.length → v.length ≤ 12 → maskSecret v 8 = v.take 8 ++ "***".toList) := by
  refine ⟨rfl, ?_, ?_, ?_⟩
  · intro hne hlen
    unfold maskSecret
    rw [if_pos (Or.inr hlen), if_neg hne]
  · intro hlen
    unfold maskSecret
    have hne : v ≠ [] := by
      intro h
      subst h
      simp at hlen
    rw [if_neg (not_or.mpr ⟨hne, by omega⟩), if_pos hlen]
  · intro h9 h12
    unfold maskSecret
    have hne : v ≠ [] := by
      intro h
      subst h
      simp at h9
    rw [if_neg (not_or.mpr ⟨hne, by omega⟩), if_neg (by omega)]

/-- Witness for C7: a 4-character secret masks to 4 asterisks; a 20-character
secret masks to its first 8 characters, an ellipsis and its last 4. -/
theorem mask_secret_spec_witness :
    maskSecret "abcd".toList 8 = "****".toList
    ∧ maskSecret "ABCDEFGHIJKLMNOPQRST".toList 8 = "ABCDEFGH...QRST".toList := by
  constructor
  · exact ((mask_secret_spec "abcd".toList).2.1 (by decide) (by decide)).trans (by decide)
  · exact ((mask_secret_spec "ABCDEFGHIJKLMNOPQRST".toList).2.2.1 (by decide)).trans (by decide)

/-! ## Lemmas about the queue registry -/

theorem lookupJob_cons (p : String × ConversionJob) (rest : List (String × ConversionJob))
    (c : String) :
    lookupJob (p :: rest) c = if p.1 == c then some p.2 else lookupJob rest c := by
  cases h : (p.1 == c) with
  | true => simp [lookupJob, List.find?, h]
  | false => simp [lookupJob, List.find?, h]

theorem setJob_cons (p : String × ConversionJob) (rest : List (String × ConversionJob))
    (cid : String) (j : ConversionJob) :
    setJob (p :: rest) cid j = (if p.1 == cid then (p.1, j) else p) :: setJob rest cid j :=
  rfl

theorem lookupJob_setJob_self {jobs : List (String × ConversionJob)} {cid : String}
    {j0 : ConversionJob} (h : lookupJob jobs cid = some j0) (j : ConversionJob) :
    lookupJob (setJob jobs cid j) cid = some j := by
  induction jobs with
  | nil => simp [lookupJob, List.find?] at h
  | cons p rest ih =>
    rw [lookupJob_cons] at h
    rw [setJob_cons]
    cases hp : (p.1 == cid) with
    | true => simp [lookupJob_cons, hp]
    | false =>
      rw [hp] at h
      simp only [Bool.false_eq_true, if_false] at h
      simp only [hp, Bool.false_eq_true, if_false, lookupJob_cons]
      exact ih h

theorem lookupJob_setJob_missing {jobs : List (String × ConversionJob)} {cid : String}
    (h : lookupJob jobs cid = none) (j : ConversionJob) :
    lookupJob (setJob jobs cid j) cid = none := by
  induction jobs with
  | nil => rfl
  | cons p rest ih =>
    rw [lookupJob_cons] at h
    rw [setJob_cons]
    cases hp : (p.1 == cid) with
    | true => rw [hp] at h; simp at h
    | false =>
      rw [hp] at h
      simp only [Bool.false_eq_true, if_false] at h
      simp only [hp, Bool.false_eq_true, if_false, lookupJob_cons]
      exact ih h

theorem lookupJob_setJob_other {jobs : List (String × ConversionJob)} {cid c : String}
    (hne : c ≠ cid) (j : ConversionJob) :
    lookupJob (setJob jobs cid j) c = lookupJob jobs c := by
  induction jobs with
  | nil => rfl
  | cons p rest ih =>
    rw [setJob_cons, lookupJob_cons, lookupJob_cons]
    cases hp : (p.1 == cid) with
    | true =>
      have hp1 : p.1 = cid := eq_of_beq hp
      have hpc : (p.1 == c) = false := beq_false_of_ne (by rw [hp1]; exact fun h => hne h.symm)
      simp only [hp, if_true, hpc, Bool.false_eq_true, if_false, ih]
    | false =>
      simp only [hp, Bool.false_eq_true, if_false]
      cases hc : (p.1 == c) with
      | true => simp [hc]
      | false => simp only [hc, Bool.false_eq_true, if_false, ih]

theorem lookupJob_setJob_cases {jobs : List (String × ConversionJob)} {cid c : String}
    {j jj : ConversionJob} (h : lookupJob (setJob jobs cid j) c = some jj) :
    (c = cid ∧ jj = j) ∨ (c ≠ cid ∧ lookupJob jobs c = some jj) := by
  by_cases hc : c = cid
  · subst hc
    cases h0 : lookupJob jobs c with
    | none => rw [lookupJob_setJob_missing h0 j] at h; cases h
    | some j0 =>
      rw [lookupJob_setJob_self h0 j] at h
      exact Or.inl ⟨rfl, (Option.some_inj.mp h).symm⟩
  · rw [lookupJob_setJob_other hc j] at h
    exact Or.inr ⟨hc, h⟩

theorem lookupJob_append_self {jobs : List (String × ConversionJob)} {cid : String}
    (h : lookupJob jobs cid = none) (j : ConversionJob) :
    lookupJob (jobs ++ [(cid, j)]) cid = some j := by
  induction jobs with
  | nil => simp [lookupJob, List.find?]
  | cons p rest ih =>
    rw [lookupJob_cons] at h
    rw [List.cons_append, lookupJob_cons]
    cases hp : (p.1 == cid) with
    | true => rw [hp] at h; simp at h
    | false =>
      rw [hp] at h
      simp only [Bool.false_eq_true, if_false] at h
      simp only [hp, Bool.false_eq_true, if_false]
      exact ih h

theorem lookupJob_append_other {jobs : List (String × ConversionJob)} {cid c : String}
    (hne : c ≠ cid) (j : ConversionJob) :
    lookupJob (jobs ++ [(cid, j)]) c = lookupJob jobs c := by
  induction jobs with
  | nil =>
    have hcc : (cid == c) = false := beq_false_of_ne (fun h => hne h.symm)
    simp [lookupJob, List.find?, hcc]
  | cons p rest ih =>
    rw [List.cons_append, lookupJob_cons, lookupJob_cons]
    cases hc : (p.1 == c) with
    | true => simp [hc]
    | false => simp only [hc, Bool.false_eq_true, if_false, ih]

theorem lookupJob_storeJob_self (jobs : List (String × ConversionJob)) (cid : String)
    (j : ConversionJob) : lookupJob (storeJob jobs cid j) cid = some j := by
  unfold storeJob
  cases h : lookupJob jobs cid with
  | none => exact lookupJob_append_self h j
  | some j0 => exact lookupJob_setJob_self h j

theorem lookupJob_storeJob_other {jobs : List (String × ConversionJob)} {cid c : String}
    (hne : c ≠ cid) (j : ConversionJob) :
    lookupJob (storeJob jobs cid j) c = lookupJob jobs c := by
  unfold storeJob
  cases h : lookupJob jobs cid with
  | none => exact lookupJob_append_other hne j
  | some j0 => exact lookupJob_setJob_other hne j

theorem lookupJob_storeJob_cases {jobs : List (String × ConversionJob)} {cid c : String}
    {j jj : ConversionJob} (h : lookupJob (storeJob jobs cid j) c = some jj) :
    (c = cid ∧ jj = j) ∨ (c ≠ cid ∧ lookupJob jobs c = some jj) := by
  by_cases hc : c = cid
  · subst hc
    rw [lookupJob_storeJob_self jobs c j] at h
    exact Or.inl ⟨rfl, (Option.some_inj.mp h).symm⟩
  · rw [lookupJob_storeJob_other hc j] at h
    exact Or.inr ⟨hc, h⟩

theorem updateJob_tasks (s : QueueState) (cid : String) (st : Option String)
    (pr : Option Nat) (em mx md : Option String) (ca : Option Nat) :
    (updateJob s cid st pr em mx md ca).tasks = s.tasks := by
  unfold updateJob
  cases h : lookupJob s.jobs cid <;> rfl

theorem updateJob_worker (s : QueueState) (cid : String) (st : Option String)
    (pr : Option Nat) (em mx md : Option String) (ca : Option Nat) :
    (updateJob s cid st pr em mx md ca).worker = s.worker := by
  unfold updateJob
  cases h : lookupJob s.jobs cid <;> rfl

theorem lookupJob_updateJob_self {s : QueueState} {cid : String} {j : ConversionJob}
    (h : lookupJob s.jobs cid = some j) (st : Option String) (pr : Option Nat)
    (em mx md : Option String) (ca : Option Nat) :
    lookupJob (updateJob s cid st pr em mx md ca).jobs cid
      = some (applyUpdate j s.clock st pr em mx md ca) := by
  unfold updateJob
  rw [h]
  exact lookupJob_setJob_self h _

theorem lookupJob_updateJob_other {s : QueueState} {cid c : String} (hne : c ≠ cid)
    (st : Option String) (pr : Option Nat) (em mx md : Option String) (ca : Option Nat) :
    lookupJob (updateJob s cid st pr em mx md ca).jobs c = lookupJob s.jobs c := by
  unfold updateJob
  cases h : lookupJob s.jobs cid with
  | none => rfl
  | some j0 => exact lookupJob_setJob_other hne _

theorem lookupJob_updateJob_cases {s : QueueState} {cid c : String} {jj : ConversionJob}
    {st : Option String} {pr : Option Nat} {em mx md : Option String} {ca : Option Nat}
    (h : lookupJob (updateJob s cid st pr em mx md ca).jobs c = some jj) :
    (c = cid ∧ ∃ j0, lookupJob s.jobs cid = some j0
      ∧ jj = applyUpdate j0 s.clock st pr em mx md ca)
    ∨ (c ≠ cid ∧ lookupJob s.jobs c = some jj) := by
  by_cases hc : c = cid
  · subst hc
    cases h0 : lookupJob s.jobs c with
    | none =>
      rw [show updateJob s c st pr em mx md ca = s from by unfold updateJob; rw [h0]] at h
      rw [h0] at h
      cases h
    | some j0 =>
      rw [lookupJob_updateJob_self h0 st pr em mx md ca] at h
      refine Or.inl ⟨rfl, j0, ?_, ?_⟩
      · exact h0 ▸ rfl
      · exact (Option.some_inj.mp h).symm
  · rw [lookupJob_updateJob_other hc st pr em mx md ca] at h
    exact Or.inr ⟨hc, h⟩

/-! ## Claim theorems for the conversion queue (C3, C10) -/

/-- C3: `retry_conversion` returns true exactly when the job exists with
status "failed"; in that case it resets the job's status to "queued" and its
progress to 0, clears the error message, stamps `updated_at` with the current
clock and re-enqueues the work (leaving worker and clock alone); for an
unknown id or a non-failed job it returns false and leaves the whole state
unchanged. -/
theorem retry_conversion_spec (s : QueueState) (cid : String) :
    ((retryConversion s cid).2 = true ↔
      ∃ j, lookupJob s.jobs cid = some j ∧ j.status = "failed")
    ∧ ((retryConversion s cid).2 = false → (retryConversion s cid).1 = s)
    ∧ (∀ j, lookupJob s.jobs cid = some j → j.status = "failed" →
        lookupJob (retryConversion s cid).1.jobs cid
          = some { j with
              status := "queued"
              progress := 0
              errorMessage := none
              updatedAt := s.clock }
        ∧ (retryConversion s cid).1.tasks = s.tasks ++ [cid]
        ∧ (retryConversion s cid).1.worker = s.worker
        ∧ (retryConversion s cid).1.clock = s.clock) := by
  cases hl : lookupJob s.jobs cid with
  | none =>
    refine ⟨?_, fun _ => ?_, fun j hj hf => ?_⟩
    · simp [retryConversion, hl]
    · simp [retryConversion, hl]
    · cases hj
  | some j0 =>
    by_cases hst : j0.status = "failed"
    · have hr : retryConversion s cid
          = ({ s with
                jobs := setJob s.jobs cid
                  { j0 with
                    status := "queued"
                    progress := 0
                    errorMessage := none
                    updatedAt := s.clock }
                tasks := s.tasks ++ [cid] }, true) := by
        simp [retryConversion, hl, hst]
      refine ⟨?_, fun hfalse => ?_, fun j hj hf => ?_⟩
      · rw [hr]
        simp only [true_iff]
        exact ⟨j0, rfl, hst⟩
      · rw [hr] at hfalse
        cases hfalse
      · have hj0 : j0 = j := Option.some_inj.mp hj
        subst hj0
        rw [hr]
        exact ⟨lookupJob_setJob_self hl _, rfl, rfl, rfl⟩
    · have hr : retryConversion s cid = (s, false) := by
        simp [retryConversion, hl, hst]
      refine ⟨?_, fun _ => ?_, fun j hj hf => ?_⟩
      · rw [hr]
        simp only [Bool.false_eq_true, false_iff]
        rintro ⟨j, hj, hjf⟩
        exact hst (by rwa [(Option.some_inj.mp hj).symm] at hjf)
      · rw [hr]
      · have hj0 : j0 = j := Option.some_inj.mp hj
        subst hj0
        exact absurd hf hst

/-- Witness for C3: retrying the failed demo job succeeds; retrying an
unknown id is a no-op returning false. -/
theorem retry_conversion_spec_witness :
    (retryConversion demoQueueState "job-1").2 = true
    ∧ ((retryConversion demoQueueState "nope").2 = false
        ∧ (retryConversion demoQueueState "nope").1 = demoQueueState) := by
  constructor
  · exact (retry_conversion_spec demoQueueState "job-1").1.mpr
      ⟨demoFailedJob, by decide, by decide⟩
  · have h2 : (retryConversion demoQueueState "nope").2 = false := by decide
    exact ⟨h2, (retry_conversion_spec demoQueueState "nope").2.1 h2⟩

/-- C10: a successful retry rewrites only status, progress, error message and
`updated_at`; the job's identity, conversion parameters, output file ids and
creation/completion timestamps are untouched, as is every other job of the
registry. -/
theorem retry_conversion_frame (s : QueueState) (cid : String) (j : ConversionJob)
    (hj : lookupJob s.jobs cid = some j) (hf : j.status = "failed") :
    ∃ j', lookupJob (retryConversion s cid).1.jobs cid = some j'
      ∧ j'.id = j.id ∧ j'.pieceId = j.pieceId ∧ j'.versionId = j.versionId
      ∧ j'.fromNotation = j.fromNotation ∧ j'.toNotation = j.toNotation
      ∧ j'.outputMusicxmlFileId = j.outputMusicxmlFileId
      ∧ j'.outputMidiFileId = j.outputMidiFileId
      ∧ j'.createdAt = j.createdAt ∧ j'.completedAt = j.completedAt
      ∧ j'.status = "queued" ∧ j'.progress = 0 ∧ j'.errorMessage = none
      ∧ j'.updatedAt = s.clock
      ∧ (∀ c, c ≠ cid → lookupJob (retryConversion s cid).1.jobs c = lookupJob s.jobs c) := by
  have hr : retryConversion s cid
      = ({ s with
            jobs := setJob s.jobs cid
              { j with
                status := "queued"
                progress := 0
                errorMessage := none
                updatedAt := s.clock }
            tasks := s.tasks ++ [cid] }, true) := by
    simp [retryConversion, hj, hf]
  refine ⟨{ j with
      status := "queued"
      progress := 0
      errorMessage := none
      updatedAt := s.clock }, ?_, rfl, rfl, rfl, rfl, rfl, rfl, rfl, rfl, rfl, rfl, rfl,
      rfl, rfl, ?_⟩
  · rw [hr]
    exact lookupJob_setJob_self hj _
  · intro c hc
    rw [hr]
    exact lookupJob_setJob_other hc _

/-- Witness for C10 at the demo state: the retried job keeps its identity,
parameters and timestamps while being reset to a queued state. -/
theorem retry_conversion_frame_witness :
    ∃ j', lookupJob (retryConversion demoQueueState "job-1").1.jobs "job-1" = some j'
      ∧ j'.createdAt = demoFailedJob.createdAt
      ∧ j'.completedAt = demoFailedJob.completedAt
      ∧ j'.status = "queued" := by
  obtain ⟨j', h1, _, _, _, _, _, _, _, h9, h10, h11, _⟩ :=
    retry_conversion_frame demoQueueState "job-1" demoFailedJob (by decide) (by decide)
  exact ⟨j', h1, h9, h10, h11⟩

/-! ## The job-status state machine (C4) -/

theorem jobTransProps_refl (l : QLabel) (cid : String) (j : ConversionJob) :
    JobTransProps l cid j j := by
  refine ⟨fun h hn => absurd h hn, fun h hn => absurd h hn, fun h hn => absurd h hn,
    fun h1 h2 => absurd (h1.symm.trans h2) (by decide), fun _ => rfl⟩

theorem nodup_append_singleton {l : List String} {a : String} (h : l.Nodup) (ha : a ∉ l) :
    (l ++ [a]).Nodup := by
  induction l with
  | nil => simp
  | cons b l ih =>
    rw [List.cons_append]
    rcases List.nodup_cons.mp h with ⟨hb, hl⟩
    refine List.nodup_cons.mpr ⟨?_, ih hl fun hm => ha (List.mem_cons_of_mem b hm)⟩
    intro hmem
    rcases List.mem_append.mp hmem with hm | hm
    · exact hb hm
    · have hba : b = a := List.mem_singleton.mp hm
      subst hba
      exact ha (List.mem_cons_self b l)

theorem qinv_init : QInv initQueueState := by
  refine ⟨fun cid h => absurd h (List.not_mem_nil cid), List.nodup_nil, ?_, ?_⟩
  · intro cid st h
    simp [initQueueState, phaseCid] at h
  · intro cid j h
    simp [initQueueState, lookupJob, List.find?] at h

/-- Invariant preservation for the worker's `_update_job` steps: the worker
holds `cid` (absent from the pending tasks, present in the registry), the
update writes a legal status, and the new phase is consistent with the
written status. -/
theorem qinv_process_update (s : QueueState) (cid : String) (newW : WorkerPhase)
    (st : Option String) (pr : Option Nat) (em : Option String)
    (mx md : Option String) (ca : Option Nat)
    (hinv : QInv s)
    (hcur : cid ∉ s.tasks)
    (hjob : ∃ j, lookupJob s.jobs cid = some j)
    (hstNew : ∀ j, lookupJob s.jobs cid = some j →
        (applyUpdate j s.clock st pr em mx md ca).status = "queued"
        ∨ (applyUpdate j s.clock st pr em mx md ca).status = "in_progress"
        ∨ (applyUpdate j s.clock st pr em mx md ca).status = "completed"
        ∨ (applyUpdate j s.clock st pr em mx md ca).status = "failed")
    (hphase : ∀ c stw, phaseCid newW = some c → phaseStatus newW = some stw →
        c = cid ∧ ∀ j, lookupJob s.jobs cid = some j →
          (applyUpdate j s.clock st pr em mx md ca).status = stw) :
    QInv (tickClock { updateJob s cid st pr em mx md ca with worker := newW }) := by
  obtain ⟨hT, hND, hW, hS⟩ := hinv
  obtain ⟨j0, hj0⟩ := hjob
  refine ⟨?_, ?_, ?_, ?_⟩
  · intro c hc
    have hc' : c ∈ s.tasks := by
      simpa [tickClock, updateJob_tasks] using hc
    have hne : c ≠ cid := fun h => hcur (h ▸ hc')
    obtain ⟨j, hj, hq⟩ := hT c hc'
    refine ⟨j, ?_, hq⟩
    show lookupJob (updateJob s cid st pr em mx md ca).jobs c = some j
    rw [lookupJob_updateJob_other hne]
    exact hj
  · show ((updateJob s cid st pr em mx md ca).tasks).Nodup
    rw [updateJob_tasks]
    exact hND
  · intro c stw hcW hstW
    have hcW' : phaseCid newW = some c := hcW
    have hstW' : phaseStatus newW = some stw := hstW
    obtain ⟨hceq, hstj⟩ := hphase c stw hcW' hstW'
    subst hceq
    constructor
    · refine ⟨applyUpdate j0 s.clock st pr em mx md ca, ?_, hstj j0 hj0⟩
      show lookupJob (updateJob s c st pr em mx md ca).jobs c
        = some (applyUpdate j0 s.clock st pr em mx md ca)
      exact lookupJob_updateJob_self hj0 st pr em mx md ca
    · show c ∉ (updateJob s c st pr em mx md ca).tasks
      rw [updateJob_tasks]
      exact hcur
  · intro c j hj
    have hj' : lookupJob (updateJob s cid st pr em mx md ca).jobs c = some j := hj
    rcases lookupJob_updateJob_cases hj' with ⟨hceq, jj0, hjj0, hjeq⟩ | ⟨hne, hold⟩
    · subst hceq
      have : jj0 = j0 := Option.some_inj.mp (hjj0.symm.trans hj0)
      subst this
      rw [hjeq]
      exact hstNew jj0 hjj0
    · exact hS c j hold

theorem phaseStatus_values {w : WorkerPhase} {stw : String}
    (h : phaseStatus w = some stw) : stw = "queued" ∨ stw = "in_progress" := by
  cases w with
  | idle => cases h
  | got cid => exact Or.inl (Option.some_inj.mp h).symm
  | atProgress10 cid => exact Or.inr (Option.some_inj.mp h).symm
  | atProgress30 cid => exact Or.inr (Option.some_inj.mp h).symm
  | atProgress50 cid => exact Or.inr (Option.some_inj.mp h).symm
  | atProgress70 cid => exact Or.inr (Option.some_inj.mp h).symm
  | atProgress85 cid => exact Or.inr (Option.some_inj.mp h).symm

theorem qinv_preserved {l : QLabel} {s s' : QueueState} (hinv : QInv s)
    (hstep : QStep l s s') : QInv s' := by
  obtain ⟨hT, hND, hW, hS⟩ := hinv
  cases hstep with
  | enqueue _ cid pieceId versionId fromN toN fresh =>
    have hcidT : cid ∉ s.tasks := fun hmem => by
      obtain ⟨j, hj, _⟩ := hT cid hmem
      rw [fresh] at hj
      cases hj
    refine ⟨?_, nodup_append_singleton hND hcidT, ?_, ?_⟩
    · intro c hc
      have hc' : c ∈ s.tasks ++ [cid] := hc
      rcases List.mem_append.mp hc' with hm | hm
      · have hne : c ≠ cid := fun h => hcidT (h ▸ hm)
        obtain ⟨j, hj, hq⟩ := hT c hm
        refine ⟨j, ?_, hq⟩
        show lookupJob (storeJob s.jobs cid _) c = some j
        rw [lookupJob_storeJob_other hne]
        exact hj
      · have hceq : c = cid := List.mem_singleton.mp hm
        subst hceq
        exact ⟨_, lookupJob_storeJob_self s.jobs c _, rfl⟩
    · intro c stw hcW hstW
      obtain ⟨⟨j, hj, hstat⟩, hnot⟩ := hW c stw hcW hstW
      have hne : c ≠ cid := fun h => by
        rw [h, fresh] at hj
        cases hj
      constructor
      · refine ⟨j, ?_, hstat⟩
        show lookupJob (storeJob s.jobs cid _) c = some j
        rw [lookupJob_storeJob_other hne]
        exact hj
      · intro hmem
        rcases List.mem_append.mp hmem with hm | hm
        · exact hnot hm
        · exact hne (List.mem_singleton.mp hm)
    · intro c j hj
      have hj' : lookupJob (storeJob s.jobs cid _) c = some j := hj
      rcases lookupJob_storeJob_cases hj' with ⟨hceq, hjeq⟩ | ⟨_, hold⟩
      · subst hjeq
        exact Or.inl rfl
      · exact hS c j hold
  | retry _ cid =>
    cases hl : lookupJob s.jobs cid with
    | none =>
      have hr : retryConversion s cid = (s, false) := by
        simp [retryConversion, hl]
      rw [hr]
      exact ⟨hT, hND, hW, hS⟩
    | some job =>
      by_cases hst : job.status = "failed"
      · have hr : (retryConversion s cid).1
            = { s with
                jobs := setJob s.jobs cid
                  { job with
                    status := "queued"
                    progress := 0
                    errorMessage := none
                    updatedAt := s.clock }
                tasks := s.tasks ++ [cid] } := by
          simp [retryConversion, hl, hst]
        rw [hr]
        have hcidT : cid ∉ s.tasks := fun hmem => by
          obtain ⟨j, hj, hq⟩ := hT cid hmem
          have hjj : j = job := Option.some_inj.mp (hj.symm.trans hl)
          subst hjj
          rw [hst] at hq
          exact absurd hq (by decide)
        refine ⟨?_, nodup_append_singleton hND hcidT, ?_, ?_⟩
        · intro c hc
          have hc' : c ∈ s.tasks ++ [cid] := hc
          rcases List.mem_append.mp hc' with hm | hm
          · have hne : c ≠ cid := fun h => hcidT (h ▸ hm)
            obtain ⟨j, hj, hq⟩ := hT c hm
            refine ⟨j, ?_, hq⟩
            show lookupJob (setJob s.jobs cid _) c = some j
            rw [lookupJob_setJob_other hne]
            exact hj
          · have hceq : c = cid := List.mem_singleton.mp hm
            subst hceq
            exact ⟨_, lookupJob_setJob_self hl _, rfl⟩
        · intro c stw hcW hstW
          obtain ⟨⟨j, hj, hstat⟩, hnot⟩ := hW c stw hcW hstW
          have hne : c ≠ cid := by
            intro h
            subst h
            have hjj : j = job := Option.some_inj.mp (hj.symm.trans hl)
            subst hjj
            rcases phaseStatus_values hstW with hv | hv <;>
              · rw [hv] at hstat
                rw [hstat] at hst
                exact absurd hst (by decide)
          constructor
          · refine ⟨j, ?_, hstat⟩
            show lookupJob (setJob s.jobs cid _) c = some j
            rw [lookupJob_setJob_other hne]
            exact hj
          · intro hmem
            rcases List.mem_append.mp hmem with hm | hm
            · exact hnot hm
            · exact hne (List.mem_singleton.mp hm)
        · intro c j hj
          have hj' : lookupJob (setJob s.jobs cid _) c = some j := hj
          rcases lookupJob_setJob_cases hj' with ⟨hceq, hjeq⟩ | ⟨_, hold⟩
          · subst hjeq
            exact Or.inl rfl
          · exact hS c j hold
      · have hr : retryConversion s cid = (s, false) := by
          simp [retryConversion, hl, hst]
        rw [hr]
        exact ⟨hT, hND, hW, hS⟩
  | pick _ cid rest htasks hw =>
    have hcons : (cid :: rest).Nodup := htasks ▸ hND
    obtain ⟨hcidrest, hrestND⟩ := List.nodup_cons.mp hcons
    refine ⟨?_, hrestND, ?_, hS⟩
    · intro c hc
      have hc' : c ∈ rest := hc
      exact hT c (htasks ▸ List.mem_cons_of_mem cid hc')
    · intro c stw hcW hstW
      have hceq : cid = c := Option.some_inj.mp hcW
      subst hceq
      have hstw : "queued" = stw := Option.some_inj.mp hstW
      subst hstw
      exact ⟨hT cid (htasks ▸ List.mem_cons_self cid rest), hcidrest⟩
  | dropMissing _ cid hw hmiss =>
    refine ⟨hT, hND, ?_, hS⟩
    intro c stw hcW hstW
    cases hcW
  | mark10 _ cid hw hjob =>
    obtain ⟨⟨j1, hj1, h1st⟩, hnot⟩ := hW cid "queued" (by rw [hw]; rfl) (by rw [hw]; rfl)
    refine qinv_process_update s cid _ _ _ _ _ _ _ ⟨hT, hND, hW, hS⟩ hnot ⟨j1, hj1⟩
      (fun j _ => Or.inr (Or.inl rfl)) ?_
    intro c stw hcW hstW
    refine ⟨(Option.some_inj.mp hcW).symm, fun j _ => ?_⟩
    have hstw : "in_progress" = stw := Option.some_inj.mp hstW
    subst hstw
    rfl
  | mark30 _ cid hw =>
    obtain ⟨⟨j1, hj1, h1st⟩, hnot⟩ := hW cid "in_progress" (by rw [hw]; rfl) (by rw [hw]; rfl)
    refine qinv_process_update s cid _ _ _ _ _ _ _ ⟨hT, hND, hW, hS⟩ hnot ⟨j1, hj1⟩ ?_ ?_
    · intro j hj
      have hjj : j = j1 := Option.some_inj.mp (hj.symm.trans hj1)
      subst hjj
      exact Or.inr (Or.inl h1st)
    · intro c stw hcW hstW
      refine ⟨(Option.some_inj.mp hcW).symm, fun j hj => ?_⟩
      have hstw : "in_progress" = stw := Option.some_inj.mp hstW
      subst hstw
      have hjj : j = j1 := Option.some_inj.mp (hj.symm.trans hj1)
      subst hjj
      exact h1st
  | failConvert _ cid msg hw =>
    obtain ⟨⟨j1, hj1, h1st⟩, hnot⟩ := hW cid "in_progress" (by rw [hw]; rfl) (by rw [hw]; rfl)
    refine qinv_process_update s cid _ _ _ _ _ _ _ ⟨hT, hND, hW, hS⟩ hnot ⟨j1, hj1⟩
      (fun j _ => Or.inr (Or.inr (Or.inr rfl))) ?_
    intro c stw hcW hstW
    cases hcW
  | mark50 _ cid hw =>
    obtain ⟨⟨j1, hj1, h1st⟩, hnot⟩ := hW cid "in_progress" (by rw [hw]; rfl) (by rw [hw]; rfl)
    refine qinv_process_update s cid _ _ _ _ _ _ _ ⟨hT, hND, hW, hS⟩ hnot ⟨j1, hj1⟩ ?_ ?_
    · intro j hj
      have hjj : j = j1 := Option.some_inj.mp (hj.symm.trans hj1)
      subst hjj
      exact Or.inr (Or.inl h1st)
    · intro c stw hcW hstW
      refine ⟨(Option.some_inj.mp hcW).symm, fun j hj => ?_⟩
      have hstw : "in_progress" = stw := Option.some_inj.mp hstW
      subst hstw
      have hjj : j = j1 := Option.some_inj.mp (hj.symm.trans hj1)
      subst hjj
      exact h1st
  | failValidate _ cid msg hw =>
    obtain ⟨⟨j1, hj1, h1st⟩, hnot⟩ := hW cid "in_progress" (by rw [hw]; rfl) (by rw [hw]; rfl)
    refine qinv_process_update s cid _ _ _ _ _ _ _ ⟨hT, hND, hW, hS⟩ hnot ⟨j1, hj1⟩
      (fun j _ => Or.inr (Or.inr (Or.inr rfl))) ?_
    intro c stw hcW hstW
    cases hcW
  | mark70 _ cid hw =>
    obtain ⟨⟨j1, hj1, h1st⟩, hnot⟩ := hW cid "in_progress" (by rw [hw]; rfl) (by rw [hw]; rfl)
    refine qinv_process_update s cid _ _ _ _ _ _ _ ⟨hT, hND, hW, hS⟩ hnot ⟨j1, hj1⟩ ?_ ?_
    · intro j hj
      have hjj : j = j1 := Option.some_inj.mp (hj.symm.trans hj1)
      subst hjj
      exact Or.inr (Or.inl h1st)
    · intro c stw hcW hstW
      refine ⟨(Option.some_inj.mp hcW).symm, fun j hj => ?_⟩
      have hstw : "in_progress" = stw := Option.some_inj.mp hstW
      subst hstw
      have hjj : j = j1 := Option.some_inj.mp (hj.symm.trans hj1)
      subst hjj
      exact h1st
  | failMidi _ cid msg hw =>
    obtain ⟨⟨j1, hj1, h1st⟩, hnot⟩ := hW cid "in_progress" (by rw [hw]; rfl) (by rw [hw]; rfl)
    refine qinv_process_update s cid _ _ _ _ _ _ _ ⟨hT, hND, hW, hS⟩ hnot ⟨j1, hj1⟩
      (fun j _ => Or.inr (Or.inr (Or.inr rfl))) ?_
    intro c stw hcW hstW
    cases hcW
  | mark85 _ cid hw =>
    obtain ⟨⟨j1, hj1, h1st⟩, hnot⟩ := hW cid "in_progress" (by rw [hw]; rfl) (by rw [hw]; rfl)
    refine qinv_process_update s cid _ _ _ _ _ _ _ ⟨hT, hND, hW, hS⟩ hnot ⟨j1, hj1⟩ ?_ ?_
    · intro j hj
      have hjj : j = j1 := Option.some_inj.mp (hj.symm.trans hj1)
      subst hjj
      exact Or.inr (Or.inl h1st)
    · intro c stw hcW hstW
      refine ⟨(Option.some_inj.mp hcW).symm, fun j hj => ?_⟩
      have hstw : "in_progress" = stw := Option.some_inj.mp hstW
      subst hstw
      have hjj : j = j1 := Option.some_inj.mp (hj.symm.trans hj1)
      subst hjj
      exact h1st
  | failUpload _ cid msg hw =>
    obtain ⟨⟨j1, hj1, h1st⟩, hnot⟩ := hW cid "in_progress" (by rw [hw]; rfl) (by rw [hw]; rfl)
    refine qinv_process_update s cid _ _ _ _ _ _ _ ⟨hT, hND, hW, hS⟩ hnot ⟨j1, hj1⟩
      (fun j _ => Or.inr (Or.inr (Or.inr rfl))) ?_
    intro c stw hcW hstW
    cases hcW
  | complete _ cid musicxmlId midiId hw =>
    obtain ⟨⟨j1, hj1, h1st⟩, hnot⟩ := hW cid "in_progress" (by rw [hw]; rfl) (by rw [hw]; rfl)
    refine qinv_process_update s cid _ _ _ _ _ _ _ ⟨hT, hND, hW, hS⟩ hnot ⟨j1, hj1⟩
      (fun j _ => Or.inr (Or.inr (Or.inl rfl))) ?_
    intro c stw hcW hstW
    cases hcW

theorem qreachable_inv {s : QueueState} (h : QReachable s) : QInv s := by
  induction h with
  | init => exact qinv_init
  | step l s s' _ hstep ih => exact qinv_preserved ih hstep

theorem unchangedJob_facts (l : QLabel) (cid : String)
    {jobs : List (String × ConversionJob)} {j' : ConversionJob}
    (hold : lookupJob jobs cid = some j') :
    (lookupJob jobs cid = none → j'.status = "queued")
    ∧ (∀ j, lookupJob jobs cid = some j → JobTransProps l cid j j') := by
  refine ⟨fun hnone => ?_, fun j hj => ?_⟩
  · rw [hnone] at hold
    cases hold
  · have hjj : j = j' := Option.some_inj.mp (hj.symm.trans hold)
    subst hjj
    exact jobTransProps_refl l cid j

/-- C4: along every transition out of a reachable queue state, each job's
status follows the state machine over {queued, in_progress, completed,
failed}: a job created by the step starts "queued"; every status stays in the
four-element set; "in_progress" is entered only from "queued" and only by the
worker's pickup marking (`mark10`); "completed" and "failed" are entered only
from "in_progress"; "failed" returns to "queued" only under the explicit
retry call; and a "completed" job is terminal — no step changes it. -/
theorem conversion_job_state_machine :
    ∀ s, QReachable s → ∀ l s', QStep l s s' →
      ∀ cid j', lookupJob s'.jobs cid = some j' →
        (lookupJob s.jobs cid = none → j'.status = "queued")
        ∧ (j'.status = "queued" ∨ j'.status = "in_progress"
            ∨ j'.status = "completed" ∨ j'.status = "failed")
        ∧ (∀ j, lookupJob s.jobs cid = some j → JobTransProps l cid j j') := by
  intro s hreach l s' hstep cid j' hj'
  have hinv := qreachable_inv hreach
  have hinv' := qinv_preserved hinv hstep
  obtain ⟨hT, hND, hW, hS⟩ := hinv
  have hfacts : (lookupJob s.jobs cid = none → j'.status = "queued")
      ∧ (∀ j, lookupJob s.jobs cid = some j → JobTransProps l cid j j') := by
    cases hstep with
    | enqueue _ cidE pieceId versionId fromN toN fresh =>
      have hj'' : lookupJob (storeJob s.jobs cidE
          { id := cidE, pieceId := pieceId, versionId := versionId
            fromNotation := fromN, toNotation := toN
            status := "queued", progress := 0
            errorMessage := none, outputMusicxmlFileId := none, outputMidiFileId := none
            createdAt := s.clock, updatedAt := s.clock, completedAt := none }) cid
          = some j' := hj'
      rcases lookupJob_storeJob_cases hj'' with ⟨hceq, hjeq⟩ | ⟨hne, hold⟩
      · subst hceq
        refine ⟨fun _ => ?_, fun j hj => ?_⟩
        · rw [hjeq]
        · rw [fresh] at hj
          cases hj
      · exact unchangedJob_facts _ cid hold
    | retry _ cidR =>
      cases hl : lookupJob s.jobs cidR with
      | none =>
        have hr : retryConversion s cidR = (s, false) := by
          simp [retryConversion, hl]
        have hj'' : lookupJob s.jobs cid = some j' := by
          have h0 : lookupJob (tickClock (retryConversion s cidR).1).jobs cid = some j' := hj'
          rwa [hr] at h0
        exact unchangedJob_facts _ cid hj''
      | some job =>
        by_cases hst : job.status = "failed"
        · have hr : (retryConversion s cidR).1
              = { s with
                  jobs := setJob s.jobs cidR
                    { job with
                      status := "queued"
                      progress := 0
                      errorMessage := none
                      updatedAt := s.clock }
                  tasks := s.tasks ++ [cidR] } := by
            simp [retryConversion, hl, hst]
          have hj'' : lookupJob (setJob s.jobs cidR
              { job with
                status := "queued"
                progress := 0
                errorMessage := none
                updatedAt := s.clock }) cid = some j' := by
            have h0 : lookupJob (tickClock (retryConversion s cidR).1).jobs cid = some j' := hj'
            rwa [hr] at h0
          rcases lookupJob_setJob_cases hj'' with ⟨hceq, hjeq⟩ | ⟨hne, hold⟩
          · subst hceq
            refine ⟨fun hnone => ?_, fun j hj => ?_⟩
            · rw [hnone] at hl
              cases hl
            · have hjj : j = job := Option.some_inj.mp (hj.symm.trans hl)
              subst hjj
              have hq' : j'.status = "queued" := by rw [hjeq]
              refine ⟨fun h _ => absurd (hq'.symm.trans h) (by decide),
                fun h _ => absurd (hq'.symm.trans h) (by decide),
                fun h _ => absurd (hq'.symm.trans h) (by decide),
                fun _ _ => rfl,
                fun hc => absurd (hc.symm.trans hst) (by decide)⟩
          · exact unchangedJob_facts _ cid hold
        · have hr : retryConversion s cidR = (s, false) := by
            simp [retryConversion, hl, hst]
          have hj'' : lookupJob s.jobs cid = some j' := by
            have h0 : lookupJob (tickClock (retryConversion s cidR).1).jobs cid = some j' := hj'
            rwa [hr] at h0
          exact unchangedJob_facts _ cid hj''
    | pick _ cidP rest htasks hw =>
      exact unchangedJob_facts _ cid hj'
    | dropMissing _ cidD hw hmiss =>
      exact unchangedJob_facts _ cid hj'
    | mark10 _ cidM hw hjob =>
      obtain ⟨⟨j1, hj1, hq⟩, hnot⟩ := hW cidM "queued" (by rw [hw]; rfl) (by rw [hw]; rfl)
      have hj'' : lookupJob (updateJob s cidM (some "in_progress") (some 10)
          none none none none).jobs cid = some j' := hj'
      rcases lookupJob_updateJob_cases hj'' with ⟨hceq, j0, hj0, hjeq⟩ | ⟨hne, hold⟩
      · subst hceq
        have hjj : j0 = j1 := Option.some_inj.mp (hj0.symm.trans hj1)
        subst hjj
        have hst' : j'.status = "in_progress" := by rw [hjeq]; rfl
        refine ⟨fun hnone => ?_, fun j hj => ?_⟩
        · rw [hnone] at hj0
          cases hj0
        · have hjj : j = j0 := Option.some_inj.mp (hj.symm.trans hj0)
          subst hjj
          refine ⟨fun _ _ => ⟨hq, rfl⟩,
            fun h _ => absurd (hst'.symm.trans h) (by decide),
            fun h _ => absurd (hst'.symm.trans h) (by decide),
            fun hf _ => absurd (hq.symm.trans hf) (by decide),
            fun hc => absurd (hq.symm.trans hc) (by decide)⟩
      · exact unchangedJob_facts _ cid hold
    | mark30 _ cidM hw =>
      obtain ⟨⟨j1, hj1, hq⟩, hnot⟩ := hW cidM "in_progress" (by rw [hw]; rfl) (by rw [hw]; rfl)
      have hj'' : lookupJob (updateJob s cidM none (some 30)
          none none none none).jobs cid = some j' := hj'
      rcases lookupJob_updateJob_cases hj'' with ⟨hceq, j0, hj0, hjeq⟩ | ⟨hne, hold⟩
      · subst hceq
        have hjj : j0 = j1 := Option.some_inj.mp (hj0.symm.trans hj1)
        subst hjj
        have hst' : j'.status = "in_progress" := by rw [hjeq]; exact hq
        refine ⟨fun hnone => ?_, fun j hj => ?_⟩
        · rw [hnone] at hj0
          cases hj0
        · have hjj : j = j0 := Option.some_inj.mp (hj.symm.trans hj0)
          subst hjj
          refine ⟨fun _ hn => absurd hq hn,
            fun h _ => absurd (hst'.symm.trans h) (by decide),
            fun h _ => absurd (hst'.symm.trans h) (by decide),
            fun hf _ => absurd (hq.symm.trans hf) (by decide),
            fun hc => absurd (hq.symm.trans hc) (by decide)⟩
      · exact unchangedJob_facts _ cid hold
    | mark50 _ cidM hw =>
      obtain ⟨⟨j1, hj1, hq⟩, hnot⟩ := hW cidM "in_progress" (by rw [hw]; rfl) (by rw [hw]; rfl)
      have hj'' : lookupJob (updateJob s cidM none (some 50)
          none none none none).jobs cid = some j' := hj'
      rcases lookupJob_updateJob_cases hj'' with ⟨hceq, j0, hj0, hjeq⟩ | ⟨hne, hold⟩
      · subst hceq
        have hjj : j0 = j1 := Option.some_inj.mp (hj0.symm.trans hj1)
        subst hjj
        have hst' : j'.status = "in_progress" := by rw [hjeq]; exact hq
        refine ⟨fun hnone => ?_, fun j hj => ?_⟩
        · rw [hnone] at hj0
          cases hj0
        · have hjj : j = j0 := Option.some_inj.mp (hj.symm.trans hj0)
          subst hjj
          refine ⟨fun _ hn => absurd hq hn,
            fun h _ => absurd (hst'.symm.trans h) (by decide),
            fun h _ => absurd (hst'.symm.trans h) (by decide),
            fun hf _ => absurd (hq.symm.trans hf) (by decide),
            fun hc => absurd (hq.symm.trans hc) (by decide)⟩
      · exact unchangedJob_facts _ cid hold
    | mark70 _ cidM hw =>
      obtain ⟨⟨j1, hj1, hq⟩, hnot⟩ := hW cidM "in_progress" (by rw [hw]; rfl) (by rw [hw]; rfl)
      have hj'' : lookupJob (updateJob s cidM none (some 70)
          none none none none).jobs cid = some j' := hj'
      rcases lookupJob_updateJob_cases hj'' with ⟨hceq, j0, hj0, hjeq⟩ | ⟨hne, hold⟩
      · subst hceq
        have hjj : j0 = j1 := Option.some_inj.mp (hj0.symm.trans hj1)
        subst hjj
        have hst' : j'.status = "in_progress" := by rw [hjeq]; exact hq
        refine ⟨fun hnone => ?_, fun j hj => ?_⟩
        · rw [hnone] at hj0
          cases hj0
        · have hjj : j = j0 := Option.some_inj.mp (hj.symm.trans hj0)
          subst hjj
          refine ⟨fun _ hn => absurd hq hn,
            fun h _ => absurd (hst'.symm.trans h) (by decide),
            fun h _ => absurd (hst'.symm.trans h) (by decide),
            fun hf _ => absurd (hq.symm.trans hf) (by decide),
            fun hc => absurd (hq.symm.trans hc) (by decide)⟩
      · exact unchangedJob_facts _ cid hold
    | mark85 _ cidM hw =>
      obtain ⟨⟨j1, hj1, hq⟩, hnot⟩ := hW cidM "in_progress" (by rw [hw]; rfl) (by rw [hw]; rfl)
      have hj'' : lookupJob (updateJob s cidM none (some 85)
          none none none none).jobs cid = some j' := hj'
      rcases lookupJob_updateJob_cases hj'' with ⟨hceq, j0, hj0, hjeq⟩ | ⟨hne, hold⟩
      · subst hceq
        have hjj : j0 = j1 := Option.some_inj.mp (hj0.symm.trans hj1)
        subst hjj
        have hst' : j'.status = "in_progress" := by rw [hjeq]; exact hq
        refine ⟨fun hnone => ?_, fun j hj => ?_⟩
        · rw [hnone] at hj0
          cases hj0
        · have hjj : j = j0 := Option.some_inj.mp (hj.symm.trans hj0)
          subst hjj
          refine ⟨fun _ hn => absurd hq hn,
            fun h _ => absurd (hst'.symm.trans h) (by decide),
            fun h _ => absurd (hst'.symm.trans h) (by decide),
            fun hf _ => absurd (hq.symm.trans hf) (by decide),
            fun hc => absurd (hq.symm.trans hc) (by decide)⟩
      · exact unchangedJob_facts _ cid hold
    | failConvert _ cidM msg hw =>
      obtain ⟨⟨j1, hj1, hq⟩, hnot⟩ := hW cidM "in_progress" (by rw [hw]; rfl) (by rw [hw]; rfl)
      have hj'' : lookupJob (updateJob s cidM (some "failed") none
          (some msg) none none none).jobs cid = some j' := hj'
      rcases lookupJob_updateJob_cases hj'' with ⟨hceq, j0, hj0, hjeq⟩ | ⟨hne, hold⟩
      · subst hceq
        have hjj : j0 = j1 := Option.some_inj.mp (hj0.symm.trans hj1)
        subst hjj
        have hst' : j'.status = "failed" := by rw [hjeq]; rfl
        refine ⟨fun hnone => ?_, fun j hj => ?_⟩
        · rw [hnone] at hj0
          cases hj0
        · have hjj : j = j0 := Option.some_inj.mp (hj.symm.trans hj0)
          subst hjj
          refine ⟨fun h _ => absurd (hst'.symm.trans h) (by decide),
            fun h _ => absurd (hst'.symm.trans h) (by decide),
            fun _ _ => hq,
            fun hf _ => absurd (hq.symm.trans hf) (by decide),
            fun hc => absurd (hq.symm.trans hc) (by decide)⟩
      · exact unchangedJob_facts _ cid hold
    | failValidate _ cidM msg hw =>
      obtain ⟨⟨j1, hj1, hq⟩, hnot⟩ := hW cidM "in_progress" (by rw [hw]; rfl) (by rw [hw]; rfl)
      have hj'' : lookupJob (updateJob s cidM (some "failed") none
          (some msg) none none none).jobs cid = some j' := hj'
      rcases lookupJob_updateJob_cases hj'' with ⟨hceq, j0, hj0, hjeq⟩ | ⟨hne, hold⟩
      · subst hceq
        have hjj : j0 = j1 := Option.some_inj.mp (hj0.symm.trans hj1)
        subst hjj
        have hst' : j'.status = "failed" := by rw [hjeq]; rfl
        refine ⟨fun hnone => ?_, fun j hj => ?_⟩
        · rw [hnone] at hj0
          cases hj0
        · have hjj : j = j0 := Option.some_inj.mp (hj.symm.trans hj0)
          subst hjj
          refine ⟨fun h _ => absurd (hst'.symm.trans h) (by decide),
            fun h _ => absurd (hst'.symm.trans h) (by decide),
            fun _ _ => hq,
            fun hf _ => absurd (hq.symm.trans hf) (by decide),
            fun hc => absurd (hq.symm.trans hc) (by decide)⟩
      · exact unchangedJob_facts _ cid hold
    | failMidi _ cidM msg hw =>
      obtain ⟨⟨j1, hj1, hq⟩, hnot⟩ := hW cidM "in_progress" (by rw [hw]; rfl) (by rw [hw]; rfl)
      have hj'' : lookupJob (updateJob s cidM (some "failed") none
          (some msg) none none none).jobs cid = some j' := hj'
      rcases lookupJob_updateJob_cases hj'' with ⟨hceq, j0, hj0, hjeq⟩ | ⟨hne, hold⟩
      · subst hceq
        have hjj : j0 = j1 := Option.some_inj.mp (hj0.symm.trans hj1)
        subst hjj
        have hst' : j'.status = "failed" := by rw [hjeq]; rfl
        refine ⟨fun hnone => ?_, fun j hj => ?_⟩
        · rw [hnone] at hj0
          cases hj0
        · have hjj : j = j0 := Option.some_inj.mp (hj.symm.trans hj0)
          subst hjj
          refine ⟨fun h _ => absurd (hst'.symm.trans h) (by decide),
            fun h _ => absurd (hst'.symm.trans h) (by decide),
            fun _ _ => hq,
            fun hf _ => absurd (hq.symm.trans hf) (by decide),
            fun hc => absurd (hq.symm.trans hc) (by decide)⟩
      · exact unchangedJob_facts _ cid hold
    | failUpload _ cidM msg hw =>
      obtain ⟨⟨j1, hj1, hq⟩, hnot⟩ := hW cidM "in_progress" (by rw [hw]; rfl) (by rw [hw]; rfl)
      have hj'' : lookupJob (updateJob s cidM (some "failed") none
          (some msg) none none none).jobs cid = some j' := hj'
      rcases lookupJob_updateJob_cases hj'' with ⟨hceq, j0, hj0, hjeq⟩ | ⟨hne, hold⟩
      · subst hceq
        have hjj : j0 = j1 := Option.some_inj.mp (hj0.symm.trans hj1)
        subst hjj
        have hst' : j'.status = "failed" := by rw [hjeq]; rfl
        refine ⟨fun hnone => ?_, fun j hj => ?_⟩
        · rw [hnone] at hj0
          cases hj0
        · have hjj : j = j0 := Option.some_inj.mp (hj.symm.trans hj0)
          subst hjj
          refine ⟨fun h _ => absurd (hst'.symm.trans h) (by decide),
            fun h _ => absurd (hst'.symm.trans h) (by decide),
            fun _ _ => hq,
            fun hf _ => absurd (hq.symm.trans hf) (by decide),
            fun hc => absurd (hq.symm.trans hc) (by decide)⟩
      · exact unchangedJob_facts _ cid hold
    | complete _ cidM musicxmlId midiId hw =>
      obtain ⟨⟨j1, hj1, hq⟩, hnot⟩ := hW cidM "in_progress" (by rw [hw]; rfl) (by rw [hw]; rfl)
      have hj'' : lookupJob (updateJob s cidM (some "completed") (some 100)
          none (some musicxmlId) (some midiId) (some s.clock)).jobs cid = some j' := hj'
      rcases lookupJob_updateJob_cases hj'' with ⟨hceq, j0, hj0, hjeq⟩ | ⟨hne, hold⟩
      · subst hceq
        have hjj : j0 = j1 := Option.some_inj.mp (hj0.symm.trans hj1)
        subst hjj
        have hst' : j'.status = "completed" := by rw [hjeq]; rfl
        refine ⟨fun hnone => ?_, fun j hj => ?_⟩
        · rw [hnone] at hj0
          cases hj0
        · have hjj : j = j0 := Option.some_inj.mp (hj.symm.trans hj0)
          subst hjj
          refine ⟨fun h _ => absurd (hst'.symm.trans h) (by decide),
            fun _ _ => hq,
            fun h _ => absurd (hst'.symm.trans h) (by decide),
            fun hf _ => absurd (hq.symm.trans hf) (by decide),
            fun hc => absurd (hq.symm.trans hc) (by decide)⟩
      · exact unchangedJob_facts _ cid hold
  exact ⟨hfacts.1, hinv'.2.2.2 cid j' hj', hfacts.2⟩

/-- Witness for C4: the step enqueuing one job on the fresh queue creates it
with status "queued". -/
theorem conversion_job_state_machine_witness :
    ∃ j', lookupJob demoEnqueuedState.jobs "c1" = some j' ∧ j'.status = "queued" := by
  have hl : lookupJob demoEnqueuedState.jobs "c1"
      = some { id := "c1"
               pieceId := "p1"
               versionId := "v1"
               fromNotation := "staff"
               toNotation := "tab"
               status := "queued"
               progress := 0
               errorMessage := none
               outputMusicxmlFileId := none
               outputMidiFileId := none
               createdAt := 0
               updatedAt := 0
               completedAt := none } := by decide
  refine ⟨_, hl, ?_⟩
  exact (conversion_job_state_machine initQueueState QReachable.init
      (.enqueue "c1" "p1" "v1" "staff" "tab") demoEnqueuedState
      (QStep.enqueue initQueueState "c1" "p1" "v1" "staff" "tab" rfl) "c1" _ hl).1 rfl

/-! ## Claim theorems for converter, storage and upload (C8, C9, C1) -/

/-- C8: a same-notation conversion request raises the `ValueError` guard
before the temporary file is written or the tool is consulted — for every
environment (tool present or not), input and notation value, the result is
the invalid-input error and the action trace is empty. -/
theorem convert_same_notation_guard (env : MuseScoreEnv) (inputMusicxml : List Nat)
    (n : String) (timeoutS : Nat) :
    convertMusicXML env inputMusicxml n n timeoutS
      = (.valueError ("Cannot convert from " ++ n ++ " to " ++ n ++ " (same type)"), []) := by
  unfold convertMusicXML
  simp

theorem getFile_dichotomy (env : GridFSEnv) (fileId : String) :
    (∃ v, getFile env fileId = .ok v)
    ∨ getFile env fileId = .error (.fileNotFound ("File not found: " ++ fileId)) := by
  unfold getFile
  cases env.parseObjectId fileId with
  | exn m => exact Or.inr rfl
  | ok oid =>
    dsimp only
    cases env.openStream oid with
    | exn m => exact Or.inr rfl
    | ok g => exact Or.inl ⟨_, rfl⟩

theorem deleteFile_dichotomy (env : GridFSEnv) (fileId : String) :
    deleteFile env fileId = .ok true
    ∨ deleteFile env fileId = .error (.fileNotFound ("File not found: " ++ fileId)) := by
  unfold deleteFile
  cases env.parseObjectId fileId with
  | exn m => exact Or.inr rfl
  | ok oid =>
    dsimp only
    cases env.deleteObj oid with
    | exn m => exact Or.inr rfl
    | ok u => exact Or.inl rfl

theorem getFileMetadata_dichotomy (env : GridFSEnv) (fileId : String) :
    (∃ v, getFileMetadata env fileId = .ok v)
    ∨ getFileMetadata env fileId = .error (.fileNotFound ("File not found: " ++ fileId)) := by
  unfold getFileMetadata
  cases env.parseObjectId fileId with
  | exn m => exact Or.inr rfl
  | ok oid =>
    dsimp only
    cases env.openStream oid with
    | exn m => exact Or.inr rfl
    | ok g => exact Or.inl ⟨_, rfl⟩

/-- C9: every failure of the fetch, delete and fetch-metadata operations is
the single NotFound error with the fixed message; `file_exists` never raises
and answers false exactly when fetch fails; and on failure the fetch result
is independent of the underlying cause, so callers cannot distinguish an
absent object from any other storage-layer error. -/
theorem storage_notfound_uniformity (env : GridFSEnv) (fileId : String) :
    (∀ e, getFile env fileId = .error e → e = .fileNotFound ("File not found: " ++ fileId))
    ∧ (∀ e, deleteFile env fileId = .error e
        → e = .fileNotFound ("File not found: " ++ fileId))
    ∧ (∀ e, getFileMetadata env fileId = .error e
        → e = .fileNotFound ("File not found: " ++ fileId))
    ∧ (∃ b, fileExists env fileId = .ok b)
    ∧ (fileExists env fileId = .ok false ↔ ∃ e, getFile env fileId = .error e)
    ∧ (∀ env2 : GridFSEnv, (∃ e, getFile env fileId = .error e)
        → (∃ e2, getFile env2 fileId = .error e2)
        → getFile env fileId = getFile env2 fileId) := by
  refine ⟨?_, ?_, ?_, ?_, ?_, ?_⟩
  · intro e h
    rcases getFile_dichotomy env fileId with ⟨v, hv⟩ | hd
    · rw [hv] at h
      cases h
    · rw [hd] at h
      injection h with h1
      exact h1.symm
  · intro e h
    rcases deleteFile_dichotomy env fileId with hv | hd
    · rw [hv] at h
      cases h
    · rw [hd] at h
      injection h with h1
      exact h1.symm
  · intro e h
    rcases getFileMetadata_dichotomy env fileId with ⟨v, hv⟩ | hd
    · rw [hv] at h
      cases h
    · rw [hd] at h
      injection h with h1
      exact h1.symm
  · rcases getFile_dichotomy env fileId with ⟨v, hv⟩ | hd
    · exact ⟨true, by unfold fileExists; rw [hv]⟩
    · exact ⟨false, by unfold fileExists; rw [hd]⟩
  · rcases getFile_dichotomy env fileId with ⟨v, hv⟩ | hd
    · have hfe : fileExists env fileId = .ok true := by unfold fileExists; rw [hv]
      rw [hfe]
      constructor
      · intro h
        injection h with h1
        cases h1
      · rintro ⟨e, he⟩
        rw [hv] at he
        cases he
    · have hfe : fileExists env fileId = .ok false := by unfold fileExists; rw [hd]
      rw [hfe]
      constructor
      · intro _
        exact ⟨_, hd⟩
      · intro _
        rfl
  · intro env2 h1 h2
    rcases getFile_dichotomy env fileId with ⟨v, hv⟩ | hd
    · obtain ⟨e, he⟩ := h1
      rw [hv] at he
      cases he
    · rcases getFile_dichotomy env2 fileId with ⟨v2, hv2⟩ | hd2
      · obtain ⟨e2, he2⟩ := h2
        rw [hv2] at he2
        cases he2
      · rw [hd, hd2]

/-- Witness for C9: on a driver whose every call raises, fetch yields the
fixed NotFound error and exists answers false without raising. -/
theorem storage_notfound_uniformity_witness :
    getFile brokenGridFSEnv "not-a-valid-objectid"
      = .error (.fileNotFound "File not found: not-a-valid-objectid")
    ∧ fileExists brokenGridFSEnv "not-a-valid-objectid" = .ok false := by
  constructor
  · rfl
  · exact (storage_notfound_uniformity brokenGridFSEnv "not-a-valid-objectid").2.2.2.2.1.mpr
      ⟨.fileNotFound "File not found: not-a-valid-objectid", rfl⟩

/-- C1 (amended): for a file within the size limit whose lower-cased filename
extension is not in the allowed-extensions set, the upload endpoint fails
with 415 UnsupportedMediaType and no storage call has happened — in
particular the original bytes are not stored. -/
theorem upload_rejects_disallowed_extension (env : UploadEnv) (content : List Nat)
    (filenameOpt : Option String) (contentTypeOpt : Option String)
    (hsize : content.length ≤ maxUploadSize)
    (hext : fileExtOf (filenameOpt.getD "untitled.xml") ∉ allowedFileExtensions) :
    (uploadFile env content filenameOpt contentTypeOpt).1
      = .error { statusCode := 415
                 detail := "Unsupported file extension: "
                   ++ fileExtOf (filenameOpt.getD "untitled.xml") ++ ". Allowed: "
                   ++ String.intercalate ", " allowedFileExtensions }
    ∧ (uploadFile env content filenameOpt contentTypeOpt).2 = [] := by
  have h1 : ¬ (maxUploadSize < content.length) := by omega
  unfold uploadFile
  rw [if_neg h1]
  simp only []
  rw [if_pos hext]
  exact ⟨rfl, rfl⟩

/-- Witness for C1 at a concrete `.exe` upload within the size limit. -/
theorem upload_rejects_disallowed_extension_witness :
    (uploadFile demoUploadEnv [60, 104, 116, 109, 108, 62] (some "malware.exe") none).1
      = .error { statusCode := 415
                 detail := "Unsupported file extension: .exe. Allowed: .pdf, .musicxml, .xml, .mxl, .mid, .midi" }
    ∧ (uploadFile demoUploadEnv [60, 104, 116, 109, 108, 62] (some "malware.exe") none).2
      = [] := by
  have h := upload_rejects_disallowed_extension demoUploadEnv [60, 104, 116, 109, 108, 62]
    (some "malware.exe") none (by decide) (by decide)
  exact ⟨h.1.trans (congrArg Except.error (by decide)), h.2⟩

/-- Counterexample for C1 as frozen: an oversized upload with a disallowed
extension is rejected as 413 PayloadTooLarge, not 415 — the claim's
unconditional 415 needs the size precondition. -/
theorem upload_oversized_counterexample :
    fileExtOf "huge.exe" = ".exe"
    ∧ ".exe" ∉ allowedFileExtensions
    ∧ (uploadFile demoUploadEnv (List.replicate (maxUploadSize + 1) 0)
        (some "huge.exe") none).1
      = .error { statusCode := 413, detail := "File too large. Max size: 50.0 MB" }
    ∧ (uploadFile demoUploadEnv (List.replicate (maxUploadSize + 1) 0)
        (some "huge.exe") none).2 = [] := by
  refine ⟨by decide, by decide, ?_, ?_⟩
  · unfold uploadFile
    rw [if_pos (by rw [List.length_replicate]; omega)]
  · unfold uploadFile
    rw [if_pos (by rw [List.length_replicate]; omega)]

end TarregaSheets
